import Mathlib

/-!
Shallow embedding of the AI Wargame rules engine (ai_wargame_skeleton.py):
unit/damage model, board state, legality predicates, the four action
resolutions, winner check, move generation, heuristics and the minimax
search with alpha-beta pruning.  Python int arithmetic is modelled with
`Int`, board cells with `Option Unit` in a list-of-lists grid, wall-clock
times with `Rat`.  The write-only search statistics (the global per-depth
counter map and the leaf counter) and all file/broker I/O are omitted:
they do not feed back into any value computed here.
-/

set_option maxHeartbeats 1000000

namespace AIWargame

/-- Every unit type (`UnitType` enum). -/
inductive UnitType where
  | AI
  | Tech
  | Virus
  | Program
  | Firewall
deriving DecidableEq

/-- Numeric value of the enum constant, used to index the tables. -/
def UnitType.value : UnitType → Nat
  | .AI => 0
  | .Tech => 1
  | .Virus => 2
  | .Program => 3
  | .Firewall => 4

/-- The 2 players (`Player` enum). -/
inductive Player where
  | Attacker
  | Defender
deriving DecidableEq

/-- The next (other) player. -/
def Player.next : Player → Player
  | .Attacker => .Defender
  | .Defender => .Attacker

/-- Game type enum (who is computer-controlled). -/
inductive GameType where
  | AttackerVsDefender
  | AttackerVsComp
  | CompVsDefender
  | CompVsComp
deriving DecidableEq

/-- A single piece: owning player, type and health. -/
structure Unit where
  player : Player := .Attacker
  type : UnitType := .Program
  health : Int := 9
deriving DecidableEq

/-- Class-level damage table, indexed by (attacker type, target type). -/
def damage_table : List (List Int) :=
  [[3,3,3,3,1],
   [1,1,6,1,1],
   [9,6,1,6,1],
   [3,3,3,3,1],
   [1,1,1,1,1]]

/-- Class-level repair table, indexed by (repairer type, target type). -/
def repair_table : List (List Int) :=
  [[0,1,1,0,0],
   [3,0,0,3,3],
   [0,0,0,0,0],
   [0,0,0,0,0],
   [0,0,0,0,0]]

/-- `table[i][j]` lookup (indices produced by `UnitType.value` are in range). -/
def tableLookup (t : List (List Int)) (i j : Nat) : Int :=
  (t.getD i []).getD j 0

/-- Are we alive? (`Unit.is_alive`). -/
def Unit.is_alive (u : Unit) : Bool :=
  u.health > 0

/-- Modify this unit's health by a delta, clamped to [0,9] (`Unit.mod_health`). -/
def Unit.mod_health (u : Unit) (health_delta : Int) : Unit :=
  let h := u.health + health_delta
  { u with health := if h < 0 then 0 else if h > 9 then 9 else h }

/-- Damage dealt to `target`, capped so it never exceeds `target.health`
(`Unit.damage_amount`). -/
def Unit.damage_amount (u target : Unit) : Int :=
  let amount := tableLookup damage_table u.type.value target.type.value
  if target.health - amount < 0 then target.health else amount

/-- Repair given to `target`, capped so health never exceeds 9
(`Unit.repair_amount`). -/
def Unit.repair_amount (u target : Unit) : Int :=
  let amount := tableLookup repair_table u.type.value target.type.value
  if target.health + amount > 9 then 9 - target.health else amount

/-- A game cell coordinate (row, col); Python ints, so `Int`. -/
structure Coord where
  row : Int := 0
  col : Int := 0
deriving DecidableEq

/-- `[a, a+1, ..., b-1]` as a list of `Int` (Python `range(a, b)`). -/
def intRange (a b : Int) : List Int :=
  (List.range (b - a).toNat).map (fun (k : Nat) => a + (k : Int))

/-- Coords inside the square of radius `dist` centered on `c`
(`Coord.iter_range`). -/
def Coord.iter_range (c : Coord) (dist : Nat) : List Coord :=
  (intRange (c.row - dist) (c.row + 1 + dist)).flatMap fun r =>
    (intRange (c.col - dist) (c.col + 1 + dist)).map fun cl => ⟨r, cl⟩

/-- The 4 orthogonally adjacent coords, in source order
(`Coord.iter_adjacent`). -/
def Coord.iter_adjacent (c : Coord) : List Coord :=
  [⟨c.row - 1, c.col⟩, ⟨c.row, c.col - 1⟩, ⟨c.row + 1, c.col⟩, ⟨c.row, c.col + 1⟩]

/-- A move or rectangular area given by two coords (`CoordPair`). -/
structure CoordPair where
  src : Coord := {}
  dst : Coord := {}
deriving DecidableEq

/-- Cells of the rectangle spanned by the pair (`CoordPair.iter_rectangle`). -/
def CoordPair.iter_rectangle (p : CoordPair) : List Coord :=
  (intRange p.src.row (p.dst.row + 1)).flatMap fun r =>
    (intRange p.src.col (p.dst.col + 1)).map fun cl => ⟨r, cl⟩

/-- A `dim`-sized board rectangle (`CoordPair.from_dim`). -/
def CoordPair.from_dim (dim : Nat) : CoordPair :=
  ⟨⟨0, 0⟩, ⟨(dim : Int) - 1, (dim : Int) - 1⟩⟩

/-- Game options (`Options` dataclass).  `max_depth` is always an int in any
run that reaches the search, so it is a `Nat` here; `max_time` is a wall
clock budget in seconds, modelled as a rational. -/
structure Options where
  dim : Nat := 5
  max_depth : Nat := 4
  min_depth : Nat := 2
  max_time : Rat := 5
  game_type : GameType := .AttackerVsDefender
  alpha_beta : Bool := true
  max_turns : Option Nat := some 100
  randomize_moves : Bool := true
  heuristic : String := "e0"
deriving DecidableEq

/-- The game state (`Game` dataclass): grid of optional units, player to
move, turn counter, options and the two incremental AI-alive flags. -/
structure Game where
  board : List (List (Option Unit)) := []
  next_player : Player := .Attacker
  turns_played : Nat := 0
  options : Options := {}
  _attacker_has_ai : Bool := true
  _defender_has_ai : Bool := true
deriving DecidableEq

/-- Bounds check for a coordinate (`Game.is_valid_coord`). -/
def Game.is_valid_coord (g : Game) (c : Coord) : Bool :=
  if c.row < 0 ∨ c.row ≥ (g.options.dim : Int) ∨ c.col < 0 ∨ c.col ≥ (g.options.dim : Int) then
    false
  else
    true

/-- Bounds-checked cell read; out of bounds reads as empty (`Game.get`). -/
def Game.get (g : Game) (c : Coord) : Option Unit :=
  if g.is_valid_coord c then
    match g.board[c.row.toNat]? with
    | some row => (row[c.col.toNat]?).join
    | none => none
  else
    none

/-- Bounds-checked cell write; out of bounds is a no-op (`Game.set`). -/
def Game.set (g : Game) (c : Coord) (u : Option Unit) : Game :=
  if g.is_valid_coord c then
    match g.board[c.row.toNat]? with
    | some row => { g with board := g.board.set c.row.toNat (row.set c.col.toNat u) }
    | none => g
  else
    g

/-- Remove the unit at `c` if it is dead, updating the AI-alive flag when an
AI is removed (`Game.remove_dead`). -/
def Game.remove_dead (g : Game) (c : Coord) : Game :=
  match g.get c with
  | some u =>
    if ¬ u.is_alive then
      let g1 := g.set c none
      if u.type = .AI then
        if u.player = .Attacker then { g1 with _attacker_has_ai := false }
        else { g1 with _defender_has_ai := false }
      else g1
    else g
  | none => g

/-- Modify health of the unit at `c` (if any) and run the removal-on-death
check (`Game.mod_health`). -/
def Game.mod_health (g : Game) (c : Coord) (health_delta : Int) : Game :=
  match g.get c with
  | some t => (g.set c (some (t.mod_health health_delta))).remove_dead c
  | none => g

/-- Is a unit at `c` adjacent to an enemy unit? (`Game.is_engaged_in_combat`).
The Python version dereferences `get c`, so it is only called on occupied
cells; an empty `c` reads as not engaged here. -/
def Game.is_engaged_in_combat (g : Game) (c : Coord) : Bool :=
  c.iter_adjacent.any fun adj =>
    g.is_valid_coord adj &&
      match g.get adj, g.get c with
      | some au, some cu => au.player ≠ cu.player
      | _, _ => false

/-- `dst` is directly below `src` (`Game.is_move_down`). -/
def is_move_down (m : CoordPair) : Bool :=
  m.src.row + 1 = m.dst.row ∧ m.src.col = m.dst.col

/-- `dst` is directly right of `src` (`Game.is_move_right`). -/
def is_move_right (m : CoordPair) : Bool :=
  m.src.row = m.dst.row ∧ m.src.col + 1 = m.dst.col

/-- `dst` is directly above `src` (`Game.is_move_up`). -/
def is_move_up (m : CoordPair) : Bool :=
  m.src.row - 1 = m.dst.row ∧ m.src.col = m.dst.col

/-- `dst` is directly left of `src` (`Game.is_move_left`). -/
def is_move_left (m : CoordPair) : Bool :=
  m.src.row = m.dst.row ∧ m.src.col - 1 = m.dst.col

/-- Manhattan-distance-1 adjacency (`Game.is_adjacent`). -/
def is_adjacent (src dst : Coord) : Bool :=
  if src.row = dst.row ∧ (src.col - dst.col).natAbs = 1 then true
  else if src.col = dst.col ∧ (src.row - dst.row).natAbs = 1 then true
  else false

/-- Plain-move legality (`Game.is_valid_move`). -/
def Game.is_valid_move (g : Game) (m : CoordPair) : Bool :=
  if ¬ g.is_valid_coord m.src ∨ ¬ g.is_valid_coord m.dst then false
  else
    match g.get m.src with
    | none => false
    | some unit =>
      if unit.player ≠ g.next_player then false
      else if ¬ is_adjacent m.src m.dst then false
      else if (unit.type = .AI ∨ unit.type = .Firewall ∨ unit.type = .Program)
          ∧ g.is_engaged_in_combat m.src then false
      else if unit.player = .Attacker
          ∧ (unit.type = .AI ∨ unit.type = .Firewall ∨ unit.type = .Program)
          ∧ (is_move_down m ∨ is_move_right m) then false
      else if unit.player = .Defender
          ∧ (unit.type = .AI ∨ unit.type = .Firewall ∨ unit.type = .Program)
          ∧ (is_move_up m ∨ is_move_left m) then false
      else (g.get m.dst).isNone

/-- Attack legality (`Game.is_valid_to_attack`): both occupied, adjacent,
source owned by the mover, opposite owners. -/
def Game.is_valid_to_attack (g : Game) (m : CoordPair) : Bool :=
  match g.get m.src, g.get m.dst with
  | some su, some du =>
    is_adjacent m.src m.dst && su.player = g.next_player && su.player ≠ du.player
  | _, _ => false

/-- Repair legality (`Game.is_valid_to_repair`): both occupied, adjacent,
same owner as the mover, nonzero (capped) repair amount, target below 9. -/
def Game.is_valid_to_repair (g : Game) (m : CoordPair) : Bool :=
  match g.get m.src, g.get m.dst with
  | some su, some du =>
    is_adjacent m.src m.dst && su.player = g.next_player && su.player = du.player
      && su.repair_amount du ≠ 0 && du.health < 9
  | _, _ => false

/-- Self-destruct legality (`Game.is_valid_to_self_destruct`): source owned
by the mover and src = dst. -/
def Game.is_valid_to_self_destruct (g : Game) (m : CoordPair) : Bool :=
  match g.get m.src with
  | some su => su.player = g.next_player && m.src = m.dst
  | none => false

/-- Attack resolution (`Game.attack`): both damage amounts computed from
pre-attack health, then both deltas applied (src first, then dst). -/
def Game.attack (g : Game) (m : CoordPair) : Game :=
  match g.get m.src, g.get m.dst with
  | some src_unit, some dst_unit =>
    let attack_amount_src_to_dst := src_unit.damage_amount dst_unit
    let attack_amount_dst_to_src := dst_unit.damage_amount src_unit
    (g.mod_health m.src (-attack_amount_dst_to_src)).mod_health m.dst (-attack_amount_src_to_dst)
  | _, _ => g

/-- Repair resolution (`Game.repair`): only the destination's health moves. -/
def Game.repair (g : Game) (m : CoordPair) : Game :=
  match g.get m.src, g.get m.dst with
  | some src_unit, some dst_unit => g.mod_health m.dst (src_unit.repair_amount dst_unit)
  | _, _ => g

/-- Self-destruct resolution (`Game.self_destruct`): drive the actor's health
to 0, then 2 damage to every cell of the 3x3 block centered on it. -/
def Game.self_destruct (g : Game) (m : CoordPair) : Game :=
  let itself := m.src
  let g1 :=
    match g.get itself with
    | some u => g.mod_health itself (-u.health)
    | none => g
  (itself.iter_range 1).foldl (fun acc c => acc.mod_health c (-2)) g1

/-- Validate and perform a move (`Game.perform_move`): tries plain move,
attack, repair, self-destruct in that fixed order; returns the new state,
a success flag and the action tag. -/
def Game.perform_move (g : Game) (m : CoordPair) : Game × Bool × String :=
  if g.is_valid_move m then
    ((g.set m.dst (g.get m.src)).set m.src none, true, "move")
  else if g.is_valid_to_attack m then
    (g.attack m, true, "attack")
  else if g.is_valid_to_repair m then
    (g.repair m, true, "repair")
  else if g.is_valid_to_self_destruct m then
    (g.self_destruct m, true, "self-destruct")
  else
    (g, false, "invalid move")

/-- Transition to the next turn (`Game.next_turn`). -/
def Game.next_turn (g : Game) : Game :=
  { g with next_player := g.next_player.next, turns_played := g.turns_played + 1 }

/-- Winner check (`Game.has_winner`). -/
def Game.has_winner (g : Game) : Option Player :=
  let limit : Bool :=
    match g.options.max_turns with
    | some mt => decide (g.turns_played ≥ mt)
    | none => false
  if limit then some .Defender
  else if g._attacker_has_ai then
    if g._defender_has_ai then none
    else some .Attacker
  else
    some .Defender

/-- All units of a player with their coordinates (`Game.player_units`). -/
def Game.player_units (g : Game) (player : Player) : List (Coord × Unit) :=
  (CoordPair.from_dim g.options.dim).iter_rectangle.filterMap fun coord =>
    match g.get coord with
    | some u => if u.player = player then some (coord, u) else none
    | none => none

/-- Candidate moves for the player to move (`Game.move_candidates`): all
adjacent moves passing one of the three predicates, plus the unconditional
self-destruct pair for every owned unit. -/
def Game.move_candidates (g : Game) : List CoordPair :=
  (g.player_units g.next_player).flatMap fun su =>
    ((su.1.iter_adjacent.filter fun dst =>
        g.is_valid_move ⟨su.1, dst⟩ || g.is_valid_to_attack ⟨su.1, dst⟩
          || g.is_valid_to_repair ⟨su.1, dst⟩).map
      fun dst => (⟨su.1, dst⟩ : CoordPair)) ++ [⟨su.1, su.1⟩]

/-- Candidate moves for an arbitrary player (`Game.get_moves_for_player`). -/
def Game.get_moves_for_player (g : Game) (current_player : Player) : List CoordPair :=
  (g.player_units current_player).flatMap fun su =>
    ((su.1.iter_adjacent.filter fun dst =>
        g.is_valid_move ⟨su.1, dst⟩ || g.is_valid_to_attack ⟨su.1, dst⟩
          || g.is_valid_to_repair ⟨su.1, dst⟩).map
      fun dst => (⟨su.1, dst⟩ : CoordPair)) ++ [⟨su.1, su.1⟩]

/-- The default board layout built by `Game.__post_init__`. -/
def initial_game (options : Options) : Game :=
  let dim := options.dim
  let md : Int := (dim : Int) - 1
  let g : Game := { board := List.replicate dim (List.replicate dim none), options := options }
  ((((((((((((g.set ⟨0, 0⟩ (some { player := .Defender, type := .AI })).set
    ⟨1, 0⟩ (some { player := .Defender, type := .Tech })).set
    ⟨0, 1⟩ (some { player := .Defender, type := .Tech })).set
    ⟨2, 0⟩ (some { player := .Defender, type := .Firewall })).set
    ⟨0, 2⟩ (some { player := .Defender, type := .Firewall })).set
    ⟨1, 1⟩ (some { player := .Defender, type := .Program })).set
    ⟨md, md⟩ (some { player := .Attacker, type := .AI })).set
    ⟨md - 1, md⟩ (some { player := .Attacker, type := .Virus })).set
    ⟨md, md - 1⟩ (some { player := .Attacker, type := .Virus })).set
    ⟨md - 2, md⟩ (some { player := .Attacker, type := .Program })).set
    ⟨md, md - 2⟩ (some { player := .Attacker, type := .Program })).set
    ⟨md - 1, md - 1⟩ (some { player := .Attacker, type := .Firewall }))

/-! ### Heuristics and search -/

/-- Maximum heuristic score constant. -/
def MAX_HEURISTIC_SCORE : Int := 2000000000

/-- Minimum heuristic score constant. -/
def MIN_HEURISTIC_SCORE : Int := -2000000000

/-- Heuristic e0: weighted material count (`Game.heuristic_e0`). -/
def Game.heuristic_e0 (board : Game) (maximizing_player : Player) : Int :=
  let us1 := board.player_units maximizing_player
  let virus_p1 := (us1.filter fun x => x.2.type = .Virus).length
  let tech_p1 := (us1.filter fun x => x.2.type = .Tech).length
  let firewall_p1 := (us1.filter fun x => x.2.type = .Firewall).length
  let program_p1 := (us1.filter fun x => x.2.type = .Program).length
  let ai_p1 := (us1.filter fun x => x.2.type = .AI).length
  let p1_score : Int :=
    3 * ((virus_p1 : Int) + tech_p1 + firewall_p1 + program_p1) + 9999 * ai_p1
  let us2 := board.player_units
    (if maximizing_player = .Defender then Player.Attacker else Player.Defender)
  let virus_p2 := (us2.filter fun x => x.2.type = .Virus).length
  let tech_p2 := (us2.filter fun x => x.2.type = .Tech).length
  let firewall_p2 := (us2.filter fun x => x.2.type = .Firewall).length
  let program_p2 := (us2.filter fun x => x.2.type = .Program).length
  let ai_p2 := (us2.filter fun x => x.2.type = .AI).length
  let p2_score : Int :=
    3 * ((virus_p2 : Int) + tech_p2 + firewall_p2 + program_p2) + 9999 * ai_p2
  p1_score - p2_score

/-- Heuristic e1: unit count plus AI safety (`Game.heuristic_e1`). -/
def Game.heuristic_e1 (board : Game) (maximizing_player : Player) : Int :=
  let us1 := board.player_units maximizing_player
  let p1_ai := (us1.filter fun x => x.2.type = .AI).length
  let p1_engaged :=
    (us1.filter fun x => x.2.type = .AI && board.is_engaged_in_combat x.1).length
  let p1_score : Int := -100 * (p1_engaged : Int) + ((us1.length : Int) + 9999 * p1_ai)
  let us2 := board.player_units
    (if maximizing_player = .Defender then Player.Attacker else Player.Defender)
  let p2_ai := (us2.filter fun x => x.2.type = .AI).length
  let p2_engaged :=
    (us2.filter fun x => x.2.type = .AI && board.is_engaged_in_combat x.1).length
  let p2_score : Int := -100 * (p2_engaged : Int) + ((us2.length : Int) + 9999 * p2_ai)
  p1_score - p2_score

/-- Heuristic e2: mobility-weighted material plus legal-move difference
(`Game.heuristic_e2`). -/
def Game.heuristic_e2 (board : Game) (maximizing_player : Player) : Int :=
  let opponent := if maximizing_player = .Defender then Player.Attacker else Player.Defender
  let us1 := board.player_units maximizing_player
  let ai_p1 := (us1.filter fun x => x.2.type = .AI).length
  let virus_p1 := (us1.filter fun x => x.2.type = .Virus).length
  let tech_p1 := (us1.filter fun x => x.2.type = .Tech).length
  let p1_score : Int := 9999 * (ai_p1 : Int) + 1000 * virus_p1 + 1000 * tech_p1
  let us2 := board.player_units opponent
  let ai_p2 := (us2.filter fun x => x.2.type = .AI).length
  let virus_p2 := (us2.filter fun x => x.2.type = .Virus).length
  let tech_p2 := (us2.filter fun x => x.2.type = .Tech).length
  let p2_score : Int := 9999 * (ai_p2 : Int) + 1000 * virus_p2 + 1000 * tech_p2
  let n1 := (board.get_moves_for_player maximizing_player).length
  let n2 := (board.get_moves_for_player opponent).length
  (p1_score - p2_score) + ((n1 : Int) - (n2 : Int))

/-- The heuristic dispatch at a search leaf: `self.options.heuristic`
selects e1, e2 or (default) e0. -/
def evalHeuristic (slf game : Game) (maximizing_player : Player) : Int :=
  if slf.options.heuristic = "e1" then game.heuristic_e1 maximizing_player
  else if slf.options.heuristic = "e2" then game.heuristic_e2 maximizing_player
  else game.heuristic_e0 maximizing_player

/-- The maximizing inner loop of `Game.minimax`: walks the candidate list,
skipping failed moves, tracking the best value/move, and (when alpha-beta is
enabled on `g`) tightening alpha and breaking once `beta <= alpha`.
`child` evaluates a successor position under a window. -/
def abLoopMax (g : Game) (child : Game → Int → Int → Int) :
    List CoordPair → Int → Option CoordPair → Int → Int → Int × Option CoordPair
  | [], max_eval, best_move, _alpha, _beta => (max_eval, best_move)
  | move :: moves, max_eval, best_move, alpha, beta =>
    match g.perform_move move with
    | (temp_game, true, _) =>
      let current_eval := child temp_game.next_turn alpha beta
      let max_eval' := if current_eval > max_eval then current_eval else max_eval
      let best_move' := if current_eval > max_eval then some move else best_move
      if g.options.alpha_beta then
        let alpha' := max alpha current_eval
        if beta ≤ alpha' then (max_eval', best_move')
        else abLoopMax g child moves max_eval' best_move' alpha' beta
      else abLoopMax g child moves max_eval' best_move' alpha beta
    | (_, false, _) => abLoopMax g child moves max_eval best_move alpha beta

/-- The minimizing inner loop of `Game.minimax` (symmetric to `abLoopMax`,
tightening beta). -/
def abLoopMin (g : Game) (child : Game → Int → Int → Int) :
    List CoordPair → Int → Option CoordPair → Int → Int → Int × Option CoordPair
  | [], min_eval, best_move, _alpha, _beta => (min_eval, best_move)
  | move :: moves, min_eval, best_move, alpha, beta =>
    match g.perform_move move with
    | (temp_game, true, _) =>
      let current_eval := child temp_game.next_turn alpha beta
      let min_eval' := if current_eval < min_eval then current_eval else min_eval
      let best_move' := if current_eval < min_eval then some move else best_move
      if g.options.alpha_beta then
        let beta' := min beta current_eval
        if beta' ≤ alpha then (min_eval', best_move')
        else abLoopMin g child moves min_eval' best_move' alpha beta'
      else abLoopMin g child moves min_eval' best_move' alpha beta
    | (_, false, _) => abLoopMin g child moves min_eval best_move alpha beta

/-- Minimax with optional alpha-beta pruning (`Game.minimax`): at depth 0 or
on a decided game, evaluate the configured heuristic; otherwise fold the
candidate moves through the matching inner loop.  `slf` is the receiver of
the original call (it supplies the heuristic choice, exactly as
`self.options.heuristic` does). -/
def minimax (slf game : Game) : Nat → Bool → Player → Int → Int → Int × Option CoordPair
  | 0, _is_maximizing_player, maximizing_player, _alpha, _beta =>
    (evalHeuristic slf game maximizing_player, none)
  | depth + 1, is_maximizing_player, maximizing_player, alpha, beta =>
    if game.has_winner.isSome then
      (evalHeuristic slf game maximizing_player, none)
    else
      let moves := game.move_candidates
      if is_maximizing_player then
        abLoopMax game (fun tg a b => (minimax slf tg depth false maximizing_player a b).1)
          moves MIN_HEURISTIC_SCORE none alpha beta
      else
        abLoopMin game (fun tg a b => (minimax slf tg depth true maximizing_player a b).1)
          moves MAX_HEURISTIC_SCORE none alpha beta

/-- Plain minimax fold over a candidate list, no pruning: the reference
value the pruned search is compared against. -/
def pureFold (g : Game) (w : Game → Int) (isMax : Bool) :
    List CoordPair → Int → Int
  | [], acc => acc
  | move :: moves, acc =>
    match g.perform_move move with
    | (tg, true, _) =>
      pureFold g w isMax moves
        (if isMax then max acc (w tg.next_turn) else min acc (w tg.next_turn))
    | (_, false, _) => pureFold g w isMax moves acc

/-- The plain (pruning-free) minimax value of a position; spec-side
reference definition for the alpha-beta equivalence claim. -/
def pureVal (slf game : Game) : Nat → Bool → Player → Int
  | 0, _isMax, maximizing_player => evalHeuristic slf game maximizing_player
  | depth + 1, isMax, maximizing_player =>
    if game.has_winner.isSome then evalHeuristic slf game maximizing_player
    else
      pureFold game (fun tg => pureVal slf tg depth (!isMax) maximizing_player) isMax
        game.move_candidates
        (if isMax then MIN_HEURISTIC_SCORE else MAX_HEURISTIC_SCORE)

/-- The same game with the alpha-beta switch forced to `b`. -/
def withAlphaBeta (g : Game) (b : Bool) : Game :=
  { g with options := { g.options with alpha_beta := b } }

/-- Fail-soft relation between a pruned search value `R` and the true
minimax value `T` under a window `(alpha, beta)`: inside the window they
agree, outside the window `R` bounds `T` from the failing side. -/
def FailSoft (R T alpha beta : Int) : Prop :=
  (R ≤ alpha → T ≤ R) ∧ (beta ≤ R → R ≤ T) ∧ (alpha < R → R < beta → R = T)

/-- `Game.suggest_move`, with the elapsed wall-clock seconds of the
completed search supplied as an oracle parameter: the search itself always
runs to completion, and only afterwards is the elapsed time compared
against the budget, discarding the computed move on overrun. -/
def suggest_move (g : Game) (elapsed_seconds : Rat) : Option CoordPair :=
  let r := minimax g g g.options.max_depth true g.next_player
    MIN_HEURISTIC_SCORE MAX_HEURISTIC_SCORE
  if elapsed_seconds > g.options.max_time then none else r.2

/-! ### Spec-side predicates and invariants -/

/-- Cell read of the raw grid, row-major, out-of-range reads empty. -/
def cellAt (b : List (List (Option Unit))) (r cl : Nat) : Option Unit :=
  match b[r]? with
  | some row => (row[cl]?).join
  | none => none

/-- Well-formed board: the grid is exactly `dim × dim`. -/
def WF (g : Game) : Prop :=
  g.board.length = g.options.dim ∧ ∀ row ∈ g.board, row.length = g.options.dim

instance : DecidablePred WF := fun g => by unfold WF; infer_instance

/-- The unit types locked in place by combat and restricted in direction. -/
def RestrictedType (t : UnitType) : Prop :=
  t = .AI ∨ t = .Firewall ∨ t = .Program

instance : DecidablePred RestrictedType := fun t => by unfold RestrictedType; infer_instance

/-- Spec-side engagement: some orthogonal neighbor holds an enemy of `u`. -/
def EngagedSpec (g : Game) (c : Coord) (u : Unit) : Prop :=
  ∃ adj ∈ c.iter_adjacent, ∃ v, g.get adj = some v ∧ v.player ≠ u.player

/-- Spec-side reading of plain-move legality, written from the claim:
bounds, ownership, adjacency, empty destination, the direction restriction
for restricted types, and the combat lock for restricted types. -/
def SpecValidMove (g : Game) (m : CoordPair) : Prop :=
  g.is_valid_coord m.src = true ∧ g.is_valid_coord m.dst = true ∧
  ∃ u, g.get m.src = some u ∧ u.player = g.next_player ∧
    ((m.src.row = m.dst.row ∧ (m.src.col - m.dst.col = 1 ∨ m.dst.col - m.src.col = 1)) ∨
     (m.src.col = m.dst.col ∧ (m.src.row - m.dst.row = 1 ∨ m.dst.row - m.src.row = 1))) ∧
    g.get m.dst = none ∧
    ¬(u.player = .Attacker ∧ RestrictedType u.type ∧
      ((m.dst.row = m.src.row + 1 ∧ m.dst.col = m.src.col) ∨
       (m.dst.row = m.src.row ∧ m.dst.col = m.src.col + 1))) ∧
    ¬(u.player = .Defender ∧ RestrictedType u.type ∧
      ((m.dst.row = m.src.row - 1 ∧ m.dst.col = m.src.col) ∨
       (m.dst.row = m.src.row ∧ m.dst.col = m.src.col - 1))) ∧
    ¬(RestrictedType u.type ∧ EngagedSpec g m.src u)

/-- The value of a cell after `mod_health` with delta `d` hits it: clamp,
then remove on death. -/
def modCellVal (d : Int) : Option Unit → Option Unit
  | none => none
  | some u =>
    let u' := u.mod_health d
    if u'.is_alive then some u' else none

/-- A live AI of player `p` is somewhere on the grid. -/
def HasAI (g : Game) (p : Player) : Prop :=
  ∃ c u, g.get c = some u ∧ u.type = .AI ∧ u.player = p

/-- At most one AI of player `p` on the grid. -/
def AtMostOneAI (g : Game) (p : Player) : Prop :=
  ∀ c₁ c₂ u₁ u₂, g.get c₁ = some u₁ → g.get c₂ = some u₂ →
    u₁.type = .AI → u₁.player = p → u₂.type = .AI → u₂.player = p → c₁ = c₂

/-- The inductive state invariant: well-formed grid, every present unit has
health in [1,9], each AI-alive flag tracks existence of that player's AI,
and each player has at most one AI. -/
structure GoodState (g : Game) : Prop where
  wf : WF g
  health : ∀ c u, g.get c = some u → 1 ≤ u.health ∧ u.health ≤ 9
  flagA : g._attacker_has_ai = true ↔ HasAI g .Attacker
  flagD : g._defender_has_ai = true ↔ HasAI g .Defender
  uniqA : AtMostOneAI g .Attacker
  uniqD : AtMostOneAI g .Defender

/-- The literal 5x5 grid `Game.__post_init__` builds when `dim = 5` (the
dimension `main` always runs with). -/
def initialBoard5 : List (List (Option Unit)) :=
  [[some { player := .Defender, type := .AI }, some { player := .Defender, type := .Tech },
    some { player := .Defender, type := .Firewall }, none, none],
   [some { player := .Defender, type := .Tech }, some { player := .Defender, type := .Program },
    none, none, none],
   [some { player := .Defender, type := .Firewall }, none, none, none,
    some { player := .Attacker, type := .Program }],
   [none, none, none, some { player := .Attacker, type := .Firewall },
    some { player := .Attacker, type := .Virus }],
   [none, none, some { player := .Attacker, type := .Program },
    some { player := .Attacker, type := .Virus }, some { player := .Attacker, type := .AI }]]

/-- The same game with its options record replaced (used to transport facts
about the initial board between option sets sharing a dimension). -/
def reOpt (g : Game) (o : Options) : Game :=
  { g with options := o }

/-- The full initial state at `dim = 5`, with the grid written out. -/
def initialGame5 (opts : Options) : Game :=
  { board := initialBoard5, next_player := .Attacker, turns_played := 0,
    options := opts, _attacker_has_ai := true, _defender_has_ai := true }

/-- States reachable from the initial board through the engine's own
operations: `perform_move` steps and turn transitions. -/
inductive Reachable (options : Options) : Game → Prop where
  | init : Reachable options (initial_game options)
  | step_move {g : Game} (m : CoordPair) :
      Reachable options g → Reachable options (g.perform_move m).1
  | step_turn {g : Game} : Reachable options g → Reachable options g.next_turn

/-! ### Basic state lemmas -/

@[simp] theorem set_options (g : Game) (c : Coord) (u : Option Unit) :
    (g.set c u).options = g.options := by
  unfold Game.set; (repeat' split) <;> rfl

@[simp] theorem set_next_player (g : Game) (c : Coord) (u : Option Unit) :
    (g.set c u).next_player = g.next_player := by
  unfold Game.set; (repeat' split) <;> rfl

@[simp] theorem set_turns_played (g : Game) (c : Coord) (u : Option Unit) :
    (g.set c u).turns_played = g.turns_played := by
  unfold Game.set; (repeat' split) <;> rfl

@[simp] theorem set_attacker_flag (g : Game) (c : Coord) (u : Option Unit) :
    (g.set c u)._attacker_has_ai = g._attacker_has_ai := by
  unfold Game.set; (repeat' split) <;> rfl

@[simp] theorem set_defender_flag (g : Game) (c : Coord) (u : Option Unit) :
    (g.set c u)._defender_has_ai = g._defender_has_ai := by
  unfold Game.set; (repeat' split) <;> rfl

@[simp] theorem remove_dead_options (g : Game) (c : Coord) :
    (g.remove_dead c).options = g.options := by
  unfold Game.remove_dead; (repeat' split) <;> simp

@[simp] theorem remove_dead_next_player (g : Game) (c : Coord) :
    (g.remove_dead c).next_player = g.next_player := by
  unfold Game.remove_dead; (repeat' split) <;> simp

@[simp] theorem remove_dead_turns_played (g : Game) (c : Coord) :
    (g.remove_dead c).turns_played = g.turns_played := by
  unfold Game.remove_dead; (repeat' split) <;> simp

@[simp] theorem mod_health_options (g : Game) (c : Coord) (d : Int) :
    (g.mod_health c d).options = g.options := by
  unfold Game.mod_health; (repeat' split) <;> simp

@[simp] theorem mod_health_next_player (g : Game) (c : Coord) (d : Int) :
    (g.mod_health c d).next_player = g.next_player := by
  unfold Game.mod_health; (repeat' split) <;> simp

@[simp] theorem mod_health_turns_played (g : Game) (c : Coord) (d : Int) :
    (g.mod_health c d).turns_played = g.turns_played := by
  unfold Game.mod_health; (repeat' split) <;> simp

@[simp] theorem attack_options (g : Game) (m : CoordPair) :
    (g.attack m).options = g.options := by
  unfold Game.attack; (repeat' split) <;> simp

@[simp] theorem repair_options (g : Game) (m : CoordPair) :
    (g.repair m).options = g.options := by
  unfold Game.repair; (repeat' split) <;> simp

theorem foldl_mod_health_options (l : List Coord) (g : Game) (d : Int) :
    (l.foldl (fun acc c => acc.mod_health c d) g).options = g.options := by
  induction l generalizing g with
  | nil => rfl
  | cons c l ih => simpa using ih (g.mod_health c d)

@[simp] theorem self_destruct_options (g : Game) (m : CoordPair) :
    (g.self_destruct m).options = g.options := by
  unfold Game.self_destruct
  rw [foldl_mod_health_options]
  (repeat' split) <;> simp

@[simp] theorem perform_move_options (g : Game) (m : CoordPair) :
    ((g.perform_move m).1).options = g.options := by
  unfold Game.perform_move; (repeat' split) <;> simp

@[simp] theorem next_turn_options (g : Game) :
    g.next_turn.options = g.options := rfl

@[simp] theorem next_turn_board (g : Game) :
    g.next_turn.board = g.board := rfl

@[simp] theorem next_turn_flags_a (g : Game) :
    g.next_turn._attacker_has_ai = g._attacker_has_ai := rfl

@[simp] theorem next_turn_flags_d (g : Game) :
    g.next_turn._defender_has_ai = g._defender_has_ai := rfl

theorem is_valid_coord_iff (g : Game) (c : Coord) :
    g.is_valid_coord c = true ↔
      0 ≤ c.row ∧ c.row < (g.options.dim : Int) ∧ 0 ≤ c.col ∧ c.col < (g.options.dim : Int) := by
  unfold Game.is_valid_coord
  split <;> rename_i h <;> simp <;> omega

theorem get_invalid (g : Game) (c : Coord) (h : g.is_valid_coord c = false) :
    g.get c = none := by
  simp [Game.get, h]

theorem get_some_valid {g : Game} {c : Coord} {u : Unit} (h : g.get c = some u) :
    g.is_valid_coord c = true := by
  by_cases hv : g.is_valid_coord c
  · exact hv
  · simp [Game.get, hv] at h

theorem get_eq_cellAt (g : Game) (x : Coord) :
    g.get x = if g.is_valid_coord x then cellAt g.board x.row.toNat x.col.toNat else none :=
  rfl

theorem cellAt_set_ne (b : List (List (Option Unit))) (r cl : Nat)
    (row : List (Option Unit)) (u : Option Unit) (hrow : b[r]? = some row)
    (r' cl' : Nat) (hne : r ≠ r' ∨ cl ≠ cl') :
    cellAt (b.set r (row.set cl u)) r' cl' = cellAt b r' cl' := by
  unfold cellAt
  rw [List.getElem?_set]
  by_cases hr : r = r'
  · subst hr
    have hlt : r < b.length := (List.getElem?_eq_some.mp hrow).1
    rw [if_pos rfl, if_pos hlt, hrow]
    have hcl : cl ≠ cl' := by tauto
    simp only
    rw [List.getElem?_set, if_neg hcl]
  · rw [if_neg hr]

theorem cellAt_set_self (b : List (List (Option Unit))) (r cl : Nat)
    (row : List (Option Unit)) (u : Option Unit) (hrow : b[r]? = some row)
    (hcl : cl < row.length) :
    cellAt (b.set r (row.set cl u)) r cl = u := by
  unfold cellAt
  have hlt : r < b.length := (List.getElem?_eq_some.mp hrow).1
  rw [List.getElem?_set, if_pos rfl, if_pos hlt]
  simp only
  rw [List.getElem?_set_self (by simpa using hcl)]
  rfl

/-- Full characterization of reads after a write (needs a well-formed board
for the overwritten cell itself). -/
theorem get_set (g : Game) (c : Coord) (u : Option Unit) (hwf : WF g)
    (hv : g.is_valid_coord c = true) (x : Coord) :
    (g.set c u).get x = if x = c then u else g.get x := by
  obtain ⟨hlen, hrows⟩ := hwf
  have hvc := (is_valid_coord_iff g c).mp hv
  have hrlt : c.row.toNat < g.board.length := by omega
  have hrow : g.board[c.row.toNat]? = some (g.board[c.row.toNat]) :=
    List.getElem?_eq_getElem hrlt
  have hrowlen : (g.board[c.row.toNat]).length = g.options.dim :=
    hrows _ (List.getElem_mem hrlt)
  have hset : g.set c u =
      { g with board :=
          g.board.set c.row.toNat ((g.board[c.row.toNat]).set c.col.toNat u) } := by
    unfold Game.set
    rw [if_pos hv, hrow]
  have hvsame : ∀ y : Coord, (g.set c u).is_valid_coord y = g.is_valid_coord y := by
    intro y
    unfold Game.is_valid_coord
    rw [hset]
  rw [get_eq_cellAt, get_eq_cellAt, hvsame]
  by_cases hvx : g.is_valid_coord x
  · rw [if_pos hvx, if_pos hvx]
    have hvx' := (is_valid_coord_iff g x).mp hvx
    have hboard : (g.set c u).board =
        g.board.set c.row.toNat ((g.board[c.row.toNat]).set c.col.toNat u) := by
      rw [hset]
    rw [hboard]
    by_cases hx : x = c
    · subst hx
      rw [if_pos rfl]
      exact cellAt_set_self _ _ _ _ _ hrow (by omega)
    · rw [if_neg hx]
      apply cellAt_set_ne _ _ _ _ _ hrow
      by_cases hr : c.row.toNat = x.row.toNat
      · right
        intro hc
        exact hx (by cases x; cases c; simp_all; omega)
      · left; exact hr
  · rw [if_neg hvx, if_neg hvx]
    split
    · rename_i hxc; subst hxc; exact absurd hv hvx
    · rfl

theorem WF_set (g : Game) (c : Coord) (u : Option Unit) (hwf : WF g) :
    WF (g.set c u) := by
  obtain ⟨hlen, hrows⟩ := hwf
  unfold Game.set
  split
  · split
    · rename_i row hrow
      constructor
      · simpa using hlen
      · intro r hmem
        simp only at hmem
        rcases List.mem_or_eq_of_mem_set hmem with h | h
        · exact hrows r h
        · subst h
          have hrm : row ∈ g.board := by
            obtain ⟨h1, h2⟩ := List.getElem?_eq_some.mp hrow
            exact h2 ▸ List.getElem_mem h1
          simpa using hrows row hrm
    · exact ⟨hlen, hrows⟩
  · exact ⟨hlen, hrows⟩

/-! ### Plain-move legality -/

theorem is_adjacent_iff (s d : Coord) :
    is_adjacent s d = true ↔
      ((s.row = d.row ∧ (s.col - d.col = 1 ∨ d.col - s.col = 1)) ∨
       (s.col = d.col ∧ (s.row - d.row = 1 ∨ d.row - s.row = 1))) := by
  unfold is_adjacent
  by_cases h1 : s.row = d.row ∧ (s.col - d.col).natAbs = 1
  · rw [if_pos h1]; simp only [true_iff]; omega
  · rw [if_neg h1]
    by_cases h2 : s.col = d.col ∧ (s.row - d.row).natAbs = 1
    · rw [if_pos h2]; simp only [true_iff]; omega
    · rw [if_neg h2]; simp only [Bool.false_eq_true, false_iff]; omega

theorem is_adjacent_ne {s d : Coord} (h : is_adjacent s d = true) : s ≠ d := by
  rw [is_adjacent_iff] at h
  intro he
  subst he
  omega

theorem engaged_iff (g : Game) (c : Coord) (u : Unit) (hu : g.get c = some u) :
    g.is_engaged_in_combat c = true ↔ EngagedSpec g c u := by
  unfold Game.is_engaged_in_combat EngagedSpec
  rw [List.any_eq_true]
  constructor
  · rintro ⟨adj, hadj, hcond⟩
    rcases hga : g.get adj with _ | v
    · rw [hga, hu] at hcond; simp at hcond
    · rw [hga, hu] at hcond
      simp only [Bool.and_eq_true, decide_eq_true_eq] at hcond
      exact ⟨adj, hadj, v, hga, hcond.2⟩
  · rintro ⟨adj, hadj, v, hv, hne⟩
    refine ⟨adj, hadj, ?_⟩
    rw [hv, hu]
    simp only [Bool.and_eq_true, decide_eq_true_eq]
    exact ⟨get_some_valid hv, hne⟩

theorem is_valid_move_iff (g : Game) (m : CoordPair) :
    g.is_valid_move m = true ↔ SpecValidMove g m := by
  unfold Game.is_valid_move SpecValidMove
  by_cases hs : g.is_valid_coord m.src = true
  case neg =>
    rw [if_pos (by left; simpa using hs)]
    simp only [Bool.false_eq_true, false_iff]
    intro hc
    exact hs hc.1
  case pos =>
  by_cases hd : g.is_valid_coord m.dst = true
  case neg =>
    rw [if_pos (by right; simpa using hd)]
    simp only [Bool.false_eq_true, false_iff]
    intro hc
    exact hd hc.2.1
  case pos =>
  rw [if_neg (by simp [hs, hd])]
  rcases hsrc : g.get m.src with _ | u
  · simp [hs, hd, hsrc]
  simp only [hs, hd, true_and]
  by_cases hp : u.player = g.next_player
  case neg =>
    rw [if_pos (by simpa using hp)]
    simp only [Bool.false_eq_true, false_iff]
    rintro ⟨u', hu', hp', -⟩
    injection hu' with he
    subst he
    exact hp hp'
  case pos =>
  rw [if_neg (by simpa using hp)]
  by_cases hadj : is_adjacent m.src m.dst = true
  case neg =>
    rw [if_pos (by simpa using hadj)]
    simp only [Bool.false_eq_true, false_iff]
    rintro ⟨u', hu', -, hadj', -⟩
    exact hadj ((is_adjacent_iff m.src m.dst).mpr hadj')
  case pos =>
  rw [if_neg (by simpa using hadj)]
  by_cases heng : RestrictedType u.type ∧ g.is_engaged_in_combat m.src = true
  case pos =>
    rw [if_pos (by exact ⟨heng.1, heng.2⟩)]
    simp only [Bool.false_eq_true, false_iff]
    rintro ⟨u', hu', -, -, -, -, -, hlock⟩
    injection hu' with he
    subst he
    exact hlock ⟨heng.1, (engaged_iff g m.src u hsrc).mp heng.2⟩
  case neg =>
  rw [if_neg (fun hc => heng ⟨hc.1, hc.2⟩)]
  by_cases hdir1 : u.player = .Attacker ∧ RestrictedType u.type ∧
      (is_move_down m = true ∨ is_move_right m = true)
  case pos =>
    rw [if_pos (by exact ⟨hdir1.1, hdir1.2.1, hdir1.2.2⟩)]
    simp only [Bool.false_eq_true, false_iff]
    rintro ⟨u', hu', -, -, -, hd1, -, -⟩
    injection hu' with he
    subst he
    refine hd1 ⟨hdir1.1, hdir1.2.1, ?_⟩
    rcases hdir1.2.2 with h | h <;>
      [left; right] <;> (simp only [is_move_down, is_move_right, decide_eq_true_eq] at h; omega)
  case neg =>
  rw [if_neg (fun hc => hdir1 ⟨hc.1, hc.2.1, hc.2.2⟩)]
  by_cases hdir2 : u.player = .Defender ∧ RestrictedType u.type ∧
      (is_move_up m = true ∨ is_move_left m = true)
  case pos =>
    rw [if_pos (by exact ⟨hdir2.1, hdir2.2.1, hdir2.2.2⟩)]
    simp only [Bool.false_eq_true, false_iff]
    rintro ⟨u', hu', -, -, -, -, hd2, -⟩
    injection hu' with he
    subst he
    refine hd2 ⟨hdir2.1, hdir2.2.1, ?_⟩
    rcases hdir2.2.2 with h | h <;>
      [left; right] <;> (simp only [is_move_up, is_move_left, decide_eq_true_eq] at h; omega)
  case neg =>
  rw [if_neg (fun hc => hdir2 ⟨hc.1, hc.2.1, hc.2.2⟩)]
  rw [Option.isNone_iff_eq_none]
  constructor
  · intro hdn
    refine ⟨u, rfl, hp, (is_adjacent_iff m.src m.dst).mp hadj, hdn, ?_, ?_, ?_⟩
    · rintro ⟨ha, hr, hmv⟩
      refine hdir1 ⟨ha, hr, ?_⟩
      rcases hmv with h | h <;> [left; right] <;>
        (simp only [is_move_down, is_move_right, decide_eq_true_eq]; omega)
    · rintro ⟨ha, hr, hmv⟩
      refine hdir2 ⟨ha, hr, ?_⟩
      rcases hmv with h | h <;> [left; right] <;>
        (simp only [is_move_up, is_move_left, decide_eq_true_eq]; omega)
    · rintro ⟨hr, hengs⟩
      exact heng ⟨hr, (engaged_iff g m.src u hsrc).mpr hengs⟩
  · rintro ⟨u', hu', -, -, hdn, -⟩
    exact hdn

/-- Everything a successful plain-move check guarantees, in the form the
invariant proof consumes. -/
theorem valid_move_extract {g : Game} {m : CoordPair} (h : g.is_valid_move m = true) :
    g.is_valid_coord m.src = true ∧ g.is_valid_coord m.dst = true ∧
    (∃ u, g.get m.src = some u ∧ u.player = g.next_player) ∧
    g.get m.dst = none ∧ m.src ≠ m.dst := by
  rw [is_valid_move_iff] at h
  obtain ⟨hs, hd, u, hu, hp, hadj, hdn, -⟩ := h
  refine ⟨hs, hd, ⟨u, hu, hp⟩, hdn, ?_⟩
  intro he
  rw [he] at hadj
  omega

/-! ### Claim C1: perform_move priority dispatch -/

/-- Claim C1: `perform_move` tries plain move, attack, repair, self-destruct
in this fixed priority order, executes exactly the first applicable action
and returns `(true, tag)`; when none applies it returns
`(false, "invalid move")` with the state unchanged, and the success flag is
the disjunction of the four legality predicates. -/
theorem claim_C1 (g : Game) (m : CoordPair) :
    (g.is_valid_move m = true →
      g.perform_move m = ((g.set m.dst (g.get m.src)).set m.src none, true, "move"))
  ∧ (g.is_valid_move m = false → g.is_valid_to_attack m = true →
      g.perform_move m = (g.attack m, true, "attack"))
  ∧ (g.is_valid_move m = false → g.is_valid_to_attack m = false →
      g.is_valid_to_repair m = true →
      g.perform_move m = (g.repair m, true, "repair"))
  ∧ (g.is_valid_move m = false → g.is_valid_to_attack m = false →
      g.is_valid_to_repair m = false → g.is_valid_to_self_destruct m = true →
      g.perform_move m = (g.self_destruct m, true, "self-destruct"))
  ∧ (g.is_valid_move m = false → g.is_valid_to_attack m = false →
      g.is_valid_to_repair m = false → g.is_valid_to_self_destruct m = false →
      g.perform_move m = (g, false, "invalid move"))
  ∧ ((g.perform_move m).2.1 = true ↔
      (g.is_valid_move m || g.is_valid_to_attack m || g.is_valid_to_repair m
        || g.is_valid_to_self_destruct m) = true) := by
  unfold Game.perform_move
  by_cases h1 : g.is_valid_move m <;> by_cases h2 : g.is_valid_to_attack m <;>
    by_cases h3 : g.is_valid_to_repair m <;> by_cases h4 : g.is_valid_to_self_destruct m <;>
    simp [h1, h2, h3, h4]

/-- Witness for C1 at a concrete state: on the empty default board every
predicate fails and the state is returned untouched with the failure tag. -/
theorem claim_C1_witness :
    ({} : Game).perform_move {} = ({}, false, "invalid move") :=
  (claim_C1 {} {}).2.2.2.2.1 (by decide) (by decide) (by decide) (by decide)

/-! ### Claim C4: winner check -/

/-- Claim C4: `has_winner` returns Defender as soon as the turn limit is
reached (whatever the AI flags say); below the limit the result for the four
flag combinations is: both alive - none, only defender's AI dead - Attacker,
attacker's AI dead (defender's alive or dead) - Defender. -/
theorem claim_C4 (g : Game) :
    (∀ mt, g.options.max_turns = some mt → mt ≤ g.turns_played →
      g.has_winner = some Player.Defender)
  ∧ ((∀ mt, g.options.max_turns = some mt → g.turns_played < mt) →
      (g._attacker_has_ai = true → g._defender_has_ai = true → g.has_winner = none)
    ∧ (g._attacker_has_ai = true → g._defender_has_ai = false →
        g.has_winner = some Player.Attacker)
    ∧ (g._attacker_has_ai = false → g._defender_has_ai = true →
        g.has_winner = some Player.Defender)
    ∧ (g._attacker_has_ai = false → g._defender_has_ai = false →
        g.has_winner = some Player.Defender)) := by
  constructor
  · intro mt hmt hle
    unfold Game.has_winner
    rw [hmt]
    simp [Nat.le_of_lt_succ, hle]
  · intro hlt
    have hlimit : (match g.options.max_turns with
        | some mt => decide (g.turns_played ≥ mt)
        | none => false) = false := by
      cases hmt : g.options.max_turns with
      | none => rfl
      | some mt => simpa using Nat.not_le.mpr (hlt mt hmt)
    refine ⟨?_, ?_, ?_, ?_⟩ <;> intro ha hd <;> unfold Game.has_winner <;>
      rw [hlimit] <;> simp [ha, hd]

/-- Witness for C4 at the default state: below the limit with both AIs
alive there is no winner. -/
theorem claim_C4_witness : ({} : Game).has_winner = none :=
  ((claim_C4 {}).2 (fun mt hmt => by
    have h2 : some (100 : Nat) = some mt := hmt
    have h3 : (100 : Nat) = mt := by injection h2
    show (0 : Nat) < mt
    omega)).1 rfl rfl

/-! ### Claim C3: plain-move legality characterization -/

/-- Claim C3: `is_valid_move` holds exactly when both coordinates are in
bounds, the source holds a unit of the player to move, the destination is
orthogonally adjacent and empty, the unit respects the owner's direction
restriction (no down/right for the Attacker's AI/Firewall/Program, no
up/left for the Defender's), and a restricted-type unit is not engaged in
combat; Tech and Virus are exempt from the direction and combat rules. -/
theorem claim_C3 (g : Game) (m : CoordPair) :
    g.is_valid_move m = true ↔ SpecValidMove g m :=
  is_valid_move_iff g m

/-! ### Cell-level effect of mod_health -/

@[simp] theorem get_set_flag_a (g : Game) (b : Bool) (x : Coord) :
    (Game.get { g with _attacker_has_ai := b } x) = g.get x := rfl

@[simp] theorem get_set_flag_d (g : Game) (b : Bool) (x : Coord) :
    (Game.get { g with _defender_has_ai := b } x) = g.get x := rfl

theorem mod_health_player (u : Unit) (d : Int) : (u.mod_health d).player = u.player := rfl

theorem mod_health_type (u : Unit) (d : Int) : (u.mod_health d).type = u.type := rfl

theorem mod_health_health_bounds (u : Unit) (d : Int) :
    0 ≤ (u.mod_health d).health ∧ (u.mod_health d).health ≤ 9 := by
  unfold Unit.mod_health
  dsimp only
  split
  · omega
  · split <;> omega

theorem mod_health_health_exact (u : Unit) (d : Int)
    (h0 : 0 ≤ u.health + d) (h9 : u.health + d ≤ 9) :
    u.mod_health d = { u with health := u.health + d } := by
  unfold Unit.mod_health
  dsimp only
  rw [if_neg (by omega), if_neg (by omega)]

theorem get_remove_dead (g : Game) (c : Coord) (hwf : WF g) (x : Coord) :
    (g.remove_dead c).get x =
      if x = c then
        (match g.get c with
         | some u => if u.is_alive then some u else none
         | none => none)
      else g.get x := by
  unfold Game.remove_dead
  cases hget : g.get c with
  | none =>
    dsimp only
    split
    · rename_i hxc; subst hxc; simp [hget]
    · rfl
  | some u =>
    have hv : g.is_valid_coord c = true := get_some_valid hget
    dsimp only
    by_cases halive : u.is_alive
    · rw [if_neg (by simpa using halive)]
      split
      · rename_i hxc; subst hxc; simp [hget, halive]
      · rfl
    · rw [if_pos (by simpa using halive)]
      have hset : ∀ y, ((g.set c none).get y) = if y = c then none else g.get y :=
        get_set g c none hwf hv
      have htail : (g.set c none).get x =
          if x = c then (if u.is_alive then some u else none) else g.get x := by
        rw [hset x]
        split
        · simp [halive]
        · rfl
      by_cases hAI : u.type = .AI
      · rw [if_pos hAI]
        by_cases hP : u.player = .Attacker
        · rw [if_pos hP, get_set_flag_a]; exact htail
        · rw [if_neg hP, get_set_flag_d]; exact htail
      · rw [if_neg hAI]; exact htail

theorem WF_remove_dead (g : Game) (c : Coord) (hwf : WF g) : WF (g.remove_dead c) := by
  unfold Game.remove_dead
  cases hget : g.get c with
  | none => exact hwf
  | some u =>
    dsimp only
    by_cases halive : u.is_alive
    · rw [if_neg (by simpa using halive)]; exact hwf
    · rw [if_pos (by simpa using halive)]
      have hs := WF_set g c none hwf
      by_cases hAI : u.type = .AI
      · rw [if_pos hAI]
        by_cases hP : u.player = .Attacker
        · rw [if_pos hP]; exact ⟨hs.1, hs.2⟩
        · rw [if_neg hP]; exact ⟨hs.1, hs.2⟩
      · rw [if_neg hAI]; exact hs

theorem WF_mod_health (g : Game) (c : Coord) (d : Int) (hwf : WF g) :
    WF (g.mod_health c d) := by
  unfold Game.mod_health
  split
  · rename_i t hget
    exact WF_remove_dead _ _ (WF_set g c _ hwf)
  · exact hwf

/-- Cell-level characterization of `Game.mod_health`: the touched cell is
clamped then removed on death, every other cell is untouched. -/
theorem get_mod_health (g : Game) (c : Coord) (d : Int) (hwf : WF g) (x : Coord) :
    (g.mod_health c d).get x =
      if x = c then modCellVal d (g.get c) else g.get x := by
  unfold Game.mod_health
  cases hget : g.get c with
  | none =>
    simp only [modCellVal]
    split
    · rename_i hxc; subst hxc; rw [hget]
    · rfl
  | some t =>
    have hv : g.is_valid_coord c = true := get_some_valid hget
    simp only
    have hwf1 : WF (g.set c (some (t.mod_health d))) := WF_set g c _ hwf
    have hget1 : ∀ y, ((g.set c (some (t.mod_health d))).get y)
        = if y = c then some (t.mod_health d) else g.get y :=
      get_set g c _ hwf hv
    rw [get_remove_dead _ _ hwf1 x]
    split
    · rename_i hxc
      rw [hget1 c, if_pos rfl]
      simp only [modCellVal]
    · rw [hget1 x, if_neg (by assumption)]

/-! ### Claim C2: attack resolution -/

/-- Claim C2: when `is_valid_to_attack` holds (and the two units carry the
[0,9] health maintained by the engine), both damage amounts are the damage
table entries capped at the target's current health and are computed from
pre-attack health; the source loses the destination's amount and the
destination the source's in the same call, nobody drops below 0, each side
loses exactly its capped amount (dying exactly when the capped amount eats
all its health), each removal check runs on its own cell, and no other cell
moves. -/
theorem claim_C2 (g : Game) (m : CoordPair) (su du : Unit)
    (hwf : WF g) (hv : g.is_valid_to_attack m = true)
    (hs : g.get m.src = some su) (hd : g.get m.dst = some du)
    (hsh : 0 ≤ su.health ∧ su.health ≤ 9) (hdh : 0 ≤ du.health ∧ du.health ≤ 9) :
    su.damage_amount du =
        min (tableLookup damage_table su.type.value du.type.value) du.health
    ∧ du.damage_amount su =
        min (tableLookup damage_table du.type.value su.type.value) su.health
    ∧ 0 ≤ su.health - du.damage_amount su
    ∧ 0 ≤ du.health - su.damage_amount du
    ∧ (g.attack m).get m.src =
        (if du.damage_amount su < su.health then
          some { su with health := su.health - du.damage_amount su } else none)
    ∧ (g.attack m).get m.dst =
        (if su.damage_amount du < du.health then
          some { du with health := du.health - su.damage_amount du } else none)
    ∧ ∀ c, c ≠ m.src → c ≠ m.dst → (g.attack m).get c = g.get c := by
  have hne : m.src ≠ m.dst := by
    unfold Game.is_valid_to_attack at hv
    rw [hs, hd] at hv
    simp only [Bool.and_eq_true, decide_eq_true_eq] at hv
    exact is_adjacent_ne hv.1.1
  have htd1 : 0 ≤ tableLookup damage_table su.type.value du.type.value := by
    cases su.type <;> cases du.type <;> decide
  have htd2 : 0 ≤ tableLookup damage_table du.type.value su.type.value := by
    cases su.type <;> cases du.type <;> decide
  have hd1 : su.damage_amount du =
      min (tableLookup damage_table su.type.value du.type.value) du.health := by
    unfold Unit.damage_amount
    dsimp only
    split <;> omega
  have hd2 : du.damage_amount su =
      min (tableLookup damage_table du.type.value su.type.value) su.health := by
    unfold Unit.damage_amount
    dsimp only
    split <;> omega
  have hpos1 : 0 ≤ su.damage_amount du := by
    unfold Unit.damage_amount; dsimp only; split <;> omega
  have hpos2 : 0 ≤ du.damage_amount su := by
    unfold Unit.damage_amount; dsimp only; split <;> omega
  have hb1 : 0 ≤ su.health - du.damage_amount su := by
    unfold Unit.damage_amount; dsimp only; split <;> omega
  have hb2 : 0 ≤ du.health - su.damage_amount du := by
    unfold Unit.damage_amount; dsimp only; split <;> omega
  have hattack : g.attack m =
      (g.mod_health m.src (-(du.damage_amount su))).mod_health m.dst
        (-(su.damage_amount du)) := by
    unfold Game.attack
    rw [hs, hd]
  have hwf1 : WF (g.mod_health m.src (-(du.damage_amount su))) := WF_mod_health _ _ _ hwf
  have hg1 := get_mod_health g m.src (-(du.damage_amount su)) hwf
  have hg2 := get_mod_health (g.mod_health m.src (-(du.damage_amount su))) m.dst
    (-(su.damage_amount du)) hwf1
  have hsrc_mod : Unit.mod_health su (-(du.damage_amount su)) =
      { su with health := su.health - du.damage_amount su } := by
    rw [mod_health_health_exact su (-(du.damage_amount su)) (by omega) (by omega),
      Int.sub_eq_add_neg]
  have hdst_mod : Unit.mod_health du (-(su.damage_amount du)) =
      { du with health := du.health - su.damage_amount du } := by
    rw [mod_health_health_exact du (-(su.damage_amount du)) (by omega) (by omega),
      Int.sub_eq_add_neg]
  refine ⟨hd1, hd2, hb1, hb2, ?_, ?_, ?_⟩
  · rw [hattack, hg2 m.src, if_neg hne, hg1 m.src, if_pos rfl, hs]
    simp only [modCellVal, hsrc_mod]
    unfold Unit.is_alive
    dsimp only
    split <;> rename_i hcmp <;> simp only [decide_eq_true_eq] at hcmp
    · rw [if_pos (by omega)]
    · rw [if_neg (by omega)]
  · rw [hattack, hg2 m.dst, if_pos rfl, hg1 m.dst, if_neg (Ne.symm hne), hd]
    simp only [modCellVal, hdst_mod]
    unfold Unit.is_alive
    dsimp only
    split <;> rename_i hcmp <;> simp only [decide_eq_true_eq] at hcmp
    · rw [if_pos (by omega)]
    · rw [if_neg (by omega)]
  · intro c hc1 hc2
    rw [hattack, hg2 c, if_neg hc2, hg1 c, if_neg hc1]

/-- Witness for C2: a concrete Virus-vs-Tech attack on a 2x2 board.  The
Virus (damage 6 against Tech) and the Tech (damage 6 against Virus) each
lose 6 health. -/
theorem claim_C2_witness :
    let gw : Game := { board := [[some { player := .Attacker, type := .Virus },
                                  some { player := .Defender, type := .Tech }],
                                 [none, none]],
                       options := { dim := 2 } }
    let mw : CoordPair := ⟨⟨0, 0⟩, ⟨0, 1⟩⟩
    (gw.attack mw).get ⟨0, 0⟩ = some { player := .Attacker, type := .Virus, health := 3 }
    ∧ (gw.attack mw).get ⟨0, 1⟩ = some { player := .Defender, type := .Tech, health := 3 } := by
  intro gw mw
  have h := claim_C2 gw mw { player := .Attacker, type := .Virus }
    { player := .Defender, type := .Tech } (by decide) (by decide) (by decide) (by decide)
    (by decide) (by decide)
  obtain ⟨-, -, -, -, h5, h6, -⟩ := h
  refine ⟨?_, ?_⟩
  · rw [h5]; decide
  · rw [h6]; decide

/-! ### Claim C6: repair legality and resolution -/

/-- Claim C6: `is_valid_to_repair` holds exactly when both cells are
occupied, adjacent, the source unit belongs to the mover, both units share
an owner, the repair-table entry is nonzero and the target is below 9
health (so full-health and repair-incapable targets are rejected); and a
valid repair raises only the target's health, by the capped amount, never
past 9, leaving the repairer untouched. -/
theorem claim_C6 (g : Game) (m : CoordPair) :
    (g.is_valid_to_repair m = true ↔
      ∃ su du, g.get m.src = some su ∧ g.get m.dst = some du ∧
        is_adjacent m.src m.dst = true ∧ su.player = g.next_player ∧
        su.player = du.player ∧
        tableLookup repair_table su.type.value du.type.value ≠ 0 ∧ du.health < 9)
  ∧ (∀ su du, WF g → g.is_valid_to_repair m = true →
      g.get m.src = some su → g.get m.dst = some du → 0 ≤ du.health →
      (g.repair m).get m.dst = some { du with health := du.health + su.repair_amount du }
      ∧ du.health < du.health + su.repair_amount du
      ∧ du.health + su.repair_amount du ≤ 9
      ∧ (g.repair m).get m.src = some su
      ∧ ∀ c, c ≠ m.dst → (g.repair m).get c = g.get c) := by
  constructor
  · unfold Game.is_valid_to_repair
    cases hs : g.get m.src with
    | none =>
      simp only [Bool.false_eq_true, false_iff]
      rintro ⟨su, du, hsu, -⟩
      exact Option.noConfusion hsu
    | some su =>
      cases hd : g.get m.dst with
      | none =>
        simp only [Bool.false_eq_true, false_iff]
        rintro ⟨su', du, -, hdu, -⟩
        exact Option.noConfusion hdu
      | some du =>
        have htr : 0 ≤ tableLookup repair_table su.type.value du.type.value := by
          cases su.type <;> cases du.type <;> decide
        have hcap : (su.repair_amount du ≠ 0 ∧ du.health < 9) ↔
            (tableLookup repair_table su.type.value du.type.value ≠ 0 ∧ du.health < 9) := by
          unfold Unit.repair_amount
          dsimp only
          split <;> omega
        simp only [Bool.and_eq_true, decide_eq_true_eq]
        constructor
        · rintro ⟨⟨⟨⟨hadj, hp⟩, hsame⟩, hra⟩, hh⟩
          obtain ⟨he, hh'⟩ := hcap.mp ⟨hra, hh⟩
          exact ⟨su, du, rfl, rfl, hadj, hp, hsame, he, hh'⟩
        · rintro ⟨su', du', hsu, hdu, hadj, hp, hsame, he, hh⟩
          injection hsu with h1
          injection hdu with h2
          subst h1; subst h2
          obtain ⟨hra, hh'⟩ := hcap.mpr ⟨he, hh⟩
          exact ⟨⟨⟨⟨hadj, hp⟩, hsame⟩, hra⟩, hh'⟩
  · intro su du hwf hv hs hd hd0
    have hvv := hv
    unfold Game.is_valid_to_repair at hvv
    rw [hs, hd] at hvv
    simp only [Bool.and_eq_true, decide_eq_true_eq] at hvv
    obtain ⟨⟨⟨⟨hadj, hp⟩, hsame⟩, hra⟩, hh9⟩ := hvv
    have hne : m.src ≠ m.dst := is_adjacent_ne hadj
    have htr : 0 ≤ tableLookup repair_table su.type.value du.type.value := by
      cases su.type <;> cases du.type <;> decide
    have hra1 : 1 ≤ su.repair_amount du ∧ du.health + su.repair_amount du ≤ 9 := by
      unfold Unit.repair_amount at hra ⊢
      dsimp only at hra ⊢
      split <;> rename_i hsp <;> omega
    have hrepair : g.repair m = g.mod_health m.dst (su.repair_amount du) := by
      unfold Game.repair
      rw [hs, hd]
    have hmod : Unit.mod_health du (su.repair_amount du) =
        { du with health := du.health + su.repair_amount du } :=
      mod_health_health_exact du _ (by omega) (by omega)
    have hg := get_mod_health g m.dst (su.repair_amount du) hwf
    refine ⟨?_, by omega, by omega, ?_, ?_⟩
    · rw [hrepair, hg m.dst, if_pos rfl, hd]
      simp only [modCellVal, hmod]
      rw [if_pos (by simp only [Unit.is_alive, decide_eq_true_eq]; omega)]
    · rw [hrepair, hg m.src, if_neg hne, hs]
    · intro c hc
      rw [hrepair, hg c, if_neg hc]

/-- Witness for C6: a Defender Tech repairing the adjacent Defender AI at
health 5 by its full table amount 3. -/
theorem claim_C6_witness :
    let gw : Game := { board := [[some { player := .Defender, type := .Tech },
                                  some { player := .Defender, type := .AI, health := 5 }],
                                 [none, none]],
                       next_player := .Defender,
                       options := { dim := 2 } }
    let mw : CoordPair := ⟨⟨0, 0⟩, ⟨0, 1⟩⟩
    gw.is_valid_to_repair mw = true
    ∧ (gw.repair mw).get ⟨0, 1⟩ = some { player := .Defender, type := .AI, health := 8 } := by
  intro gw mw
  have h := (claim_C6 gw mw).2 { player := .Defender, type := .Tech }
    { player := .Defender, type := .AI, health := 5 }
    (by decide) (by decide) (by decide) (by decide) (by decide)
  exact ⟨by decide, by rw [h.1]; decide⟩

/-! ### Claim C5: self-destruct resolution -/

theorem WF_mod_health_foldl (l : List Coord) (g : Game) (d : Int) (hwf : WF g) :
    WF (l.foldl (fun acc c => acc.mod_health c d) g) := by
  induction l generalizing g with
  | nil => exact hwf
  | cons c l ih => exact ih _ (WF_mod_health g c d hwf)

theorem get_mod_health_foldl_not_mem (l : List Coord) (g : Game) (d : Int) (x : Coord)
    (hwf : WF g) (hx : x ∉ l) :
    (l.foldl (fun acc c => acc.mod_health c d) g).get x = g.get x := by
  induction l generalizing g with
  | nil => rfl
  | cons c l ih =>
    simp only [List.foldl_cons]
    rw [ih _ (WF_mod_health g c d hwf) (fun h => hx (List.mem_cons_of_mem c h))]
    rw [get_mod_health g c d hwf x,
      if_neg (fun h => hx (by rw [h]; exact List.mem_cons_self c l))]

theorem get_mod_health_foldl_mem (l : List Coord) (g : Game) (d : Int) (x : Coord)
    (hwf : WF g) (hl : l.Nodup) (hx : x ∈ l) :
    (l.foldl (fun acc c => acc.mod_health c d) g).get x = modCellVal d (g.get x) := by
  induction l generalizing g with
  | nil => cases hx
  | cons c l ih =>
    simp only [List.foldl_cons]
    rcases List.mem_cons.mp hx with hxc | hxl
    · subst hxc
      rw [get_mod_health_foldl_not_mem l _ d x (WF_mod_health g x d hwf)
        (by simpa using (List.nodup_cons.mp hl).1)]
      rw [get_mod_health g x d hwf x, if_pos rfl]
    · have hxc : x ≠ c := fun h => (List.nodup_cons.mp hl).1 (h ▸ hxl)
      rw [ih _ (WF_mod_health g c d hwf) (List.nodup_cons.mp hl).2 hxl]
      rw [get_mod_health g c d hwf x, if_neg hxc]

theorem intRange_three (r : Int) : intRange (r - 1) (r + 1 + 1) = [r - 1, r, r + 1] := by
  unfold intRange
  rw [show r + 1 + 1 - (r - 1) = (3 : Int) from by ring]
  rw [show (3 : Int).toNat = 3 from rfl, show List.range 3 = [0, 1, 2] from rfl]
  simp only [List.map_cons, List.map_nil, List.cons.injEq, and_true]
  omega

theorem get_some_mem_flat {g : Game} {c : Coord} {u : Unit} (h : g.get c = some u) :
    ∃ row ∈ g.board, some u ∈ row := by
  unfold Game.get at h
  split at h
  · split at h
    · rename_i row hrow
      refine ⟨row, ?_, ?_⟩
      · obtain ⟨h1, h2⟩ := List.getElem?_eq_some.mp hrow
        exact h2 ▸ List.getElem_mem h1
      · cases hcell : row[c.col.toNat]? with
        | none => rw [hcell] at h; exact Option.noConfusion h
        | some cell =>
          rw [hcell] at h
          have hc : cell = some u := by
            cases cell with
            | none => exact Option.noConfusion h
            | some w => simpa [Option.join] using h
          subst hc
          obtain ⟨h1, h2⟩ := List.getElem?_eq_some.mp hcell
          exact h2 ▸ List.getElem_mem h1
    · exact Option.noConfusion h
  · exact Option.noConfusion h

theorem iter_range_one (c : Coord) :
    c.iter_range 1 =
      [⟨c.row - 1, c.col - 1⟩, ⟨c.row - 1, c.col⟩, ⟨c.row - 1, c.col + 1⟩,
       ⟨c.row, c.col - 1⟩, ⟨c.row, c.col⟩, ⟨c.row, c.col + 1⟩,
       ⟨c.row + 1, c.col - 1⟩, ⟨c.row + 1, c.col⟩, ⟨c.row + 1, c.col + 1⟩] := by
  unfold Coord.iter_range
  rw [show ((1 : Nat) : Int) = 1 from rfl]
  rw [intRange_three, intRange_three]
  rfl

theorem iter_range_one_nodup (c : Coord) : (c.iter_range 1).Nodup := by
  rw [iter_range_one]
  simp only [List.nodup_cons, List.mem_cons, List.not_mem_nil, or_false,
    Coord.mk.injEq, not_or, List.nodup_nil, and_true, true_and, not_false_eq_true]
  repeat' constructor
  all_goals omega

theorem mem_iter_range_one (c x : Coord) :
    x ∈ c.iter_range 1 ↔ (x.row - c.row).natAbs ≤ 1 ∧ (x.col - c.col).natAbs ≤ 1 := by
  rw [iter_range_one]
  cases x with
  | mk xr xc =>
    simp only [List.mem_cons, List.not_mem_nil, or_false, Coord.mk.injEq]
    omega

theorem modCellVal_neg_two (u : Unit) (h9 : u.health ≤ 9) :
    modCellVal (-2) (some u) =
      if 2 < u.health then some { u with health := u.health - 2 } else none := by
  by_cases hc : 2 < u.health
  · rw [if_pos hc]
    have hmod : u.mod_health (-2) = { u with health := u.health - 2 } := by
      rw [mod_health_health_exact u (-2) (by omega) (by omega), Int.sub_eq_add_neg]
    simp only [modCellVal, hmod]
    rw [if_pos (by simp only [Unit.is_alive, decide_eq_true_eq]; omega)]
  · rw [if_neg hc]
    simp only [modCellVal, Unit.mod_health, Unit.is_alive]
    split <;> rename_i h1
    · rw [if_neg (by simp only [decide_eq_true_eq]; omega)]
    · split <;> rename_i h2
      · omega
      · rw [if_neg (by simp only [decide_eq_true_eq]; omega)]

/-- Claim C5: a valid self-destruct removes the acting unit (health driven
to 0) and deals exactly 2 damage, with a removal-on-death check, to the
unit in every cell of the 3x3 Chebyshev-distance-1 block centered on the
source (the source cell itself is double-hit, but it is already empty, so
the extra 2 damage is a no-op); every cell outside the block -- in
particular every out-of-bounds cell of the block, whose reads and writes
are absorbed -- is untouched, so at most the block's board-bounded cells
(at most 9) are affected. -/
theorem claim_C5 (g : Game) (m : CoordPair)
    (hwf : WF g) (hv : g.is_valid_to_self_destruct m = true)
    (hh : ∀ c u, g.get c = some u → u.health ≤ 9) :
    (g.self_destruct m).get m.src = none
  ∧ (∀ c, c ∈ m.src.iter_range 1 → c ≠ m.src →
      (g.self_destruct m).get c =
        (match g.get c with
         | some u => if 2 < u.health then some { u with health := u.health - 2 } else none
         | none => none))
  ∧ (∀ c, c ∉ m.src.iter_range 1 → (g.self_destruct m).get c = g.get c)
  ∧ (∀ c, c ∈ m.src.iter_range 1 ↔
      (c.row - m.src.row).natAbs ≤ 1 ∧ (c.col - m.src.col).natAbs ≤ 1) := by
  obtain ⟨su, hs⟩ : ∃ su, g.get m.src = some su := by
    unfold Game.is_valid_to_self_destruct at hv
    cases hsu : g.get m.src with
    | none => rw [hsu] at hv; exact Bool.noConfusion hv
    | some su => exact ⟨su, rfl⟩
  have hsd : g.self_destruct m =
      (m.src.iter_range 1).foldl (fun acc c => acc.mod_health c (-2))
        (g.mod_health m.src (-su.health)) := by
    unfold Game.self_destruct
    dsimp only
    rw [hs]
  have hwf1 : WF (g.mod_health m.src (-su.health)) := WF_mod_health _ _ _ hwf
  have hg1 := get_mod_health g m.src (-su.health) hwf
  have hsrc_dead : (g.mod_health m.src (-su.health)).get m.src = none := by
    rw [hg1 m.src, if_pos rfl, hs]
    have h0 : su.health + -su.health = 0 := by ring
    simp only [modCellVal, Unit.mod_health, Unit.is_alive, h0]
    norm_num
  have hmem_src : m.src ∈ m.src.iter_range 1 := by
    rw [mem_iter_range_one]
    simp
  refine ⟨?_, ?_, ?_, fun c => mem_iter_range_one m.src c⟩
  · rw [hsd, get_mod_health_foldl_mem _ _ _ _ hwf1 (iter_range_one_nodup m.src) hmem_src,
      hsrc_dead]
    rfl
  · intro c hc hcne
    rw [hsd, get_mod_health_foldl_mem _ _ _ _ hwf1 (iter_range_one_nodup m.src) hc,
      hg1 c, if_neg hcne]
    cases hgc : g.get c with
    | none => rfl
    | some u => exact modCellVal_neg_two u (hh c u hgc)
  · intro c hc
    have hcne : c ≠ m.src := fun h => hc (h ▸ hmem_src)
    rw [hsd, get_mod_health_foldl_not_mem _ _ _ _ hwf1 hc, hg1 c, if_neg hcne]

/-- Witness for C5: an Attacker Virus self-destructing in the corner of a
2x2 board: it removes itself and deals 2 damage to the three in-bounds
neighbors, leaving the out-of-bounds block cells absorbed. -/
theorem claim_C5_witness :
    let gw : Game := { board := [[some { player := .Attacker, type := .Virus },
                                  some { player := .Defender, type := .Tech }],
                                 [some { player := .Defender, type := .Program, health := 2 },
                                  none]],
                       options := { dim := 2 } }
    let mw : CoordPair := ⟨⟨0, 0⟩, ⟨0, 0⟩⟩
    (gw.self_destruct mw).get ⟨0, 0⟩ = none
    ∧ (gw.self_destruct mw).get ⟨0, 1⟩ = some { player := .Defender, type := .Tech, health := 7 }
    ∧ (gw.self_destruct mw).get ⟨1, 0⟩ = none := by
  intro gw mw
  have h := claim_C5 gw mw (by decide) (by decide)
    (by intro c u hcu
        obtain ⟨row, hrow, hcell⟩ := get_some_mem_flat hcu
        simp only [List.mem_cons, List.not_mem_nil, or_false] at hrow
        rcases hrow with h | h <;> subst h <;>
          simp only [List.mem_cons, List.not_mem_nil, or_false,
            Option.some.injEq, reduceCtorEq, false_or] at hcell
        · rcases hcell with h | h <;> subst h <;> decide
        · subst hcell; decide)
  obtain ⟨h1, h2, -, -⟩ := h
  refine ⟨h1, ?_, ?_⟩
  · rw [h2 ⟨0, 1⟩ (by decide) (by decide)]; decide
  · rw [h2 ⟨1, 0⟩ (by decide) (by decide)]; decide

/-! ### Claim C9: move generator -/

theorem mem_intRange (a b x : Int) : x ∈ intRange a b ↔ a ≤ x ∧ x < b := by
  unfold intRange
  simp only [List.mem_map, List.mem_range]
  constructor
  · rintro ⟨k, hk, rfl⟩
    omega
  · intro h
    exact ⟨(x - a).toNat, by omega, by omega⟩

theorem mem_iter_rectangle_from_dim (d : Nat) (c : Coord) :
    c ∈ (CoordPair.from_dim d).iter_rectangle ↔
      0 ≤ c.row ∧ c.row < (d : Int) ∧ 0 ≤ c.col ∧ c.col < (d : Int) := by
  unfold CoordPair.iter_rectangle CoordPair.from_dim
  simp only [List.mem_flatMap, List.mem_map, mem_intRange]
  constructor
  · rintro ⟨r, hr, cl, hcl, rfl⟩
    simp only
    omega
  · intro h
    exact ⟨c.row, by omega, c.col, by omega, rfl⟩

theorem mem_player_units (g : Game) (p : Player) (c : Coord) (u : Unit) :
    (c, u) ∈ g.player_units p ↔ g.get c = some u ∧ u.player = p := by
  unfold Game.player_units
  rw [List.mem_filterMap]
  constructor
  · rintro ⟨coord, hcoord, hf⟩
    cases hget : g.get coord with
    | none => rw [hget] at hf; exact Option.noConfusion hf
    | some u' =>
      rw [hget] at hf
      dsimp only at hf
      split at hf
      · injection hf with hf
        injection hf with h1 h2
        subst h1; subst h2
        rename_i hp
        exact ⟨hget, hp⟩
      · exact Option.noConfusion hf
  · rintro ⟨hget, hp⟩
    refine ⟨c, ?_, ?_⟩
    · rw [mem_iter_rectangle_from_dim]
      have hv := (is_valid_coord_iff g c).mp (get_some_valid hget)
      exact hv
    · rw [hget]
      dsimp only
      rw [if_pos hp]

/-- Claim C9: the move generator yields exactly the moves whose source
holds a unit of the player to move and whose destination is either one of
the 4 orthogonal neighbors passing `is_valid_move`, `is_valid_to_attack`
or `is_valid_to_repair`, or -- unconditionally, with no legality filter --
the source itself (the permissive self-destruct candidate). -/
theorem claim_C9 (g : Game) (m : CoordPair) :
    m ∈ g.move_candidates ↔
      (∃ u, g.get m.src = some u ∧ u.player = g.next_player) ∧
      (m.dst = m.src ∨
        (m.dst ∈ m.src.iter_adjacent ∧
          (g.is_valid_move m || g.is_valid_to_attack m || g.is_valid_to_repair m) = true)) := by
  unfold Game.move_candidates
  rw [List.mem_flatMap]
  constructor
  · rintro ⟨⟨c, u⟩, hmem, hin⟩
    rw [mem_player_units] at hmem
    rcases List.mem_append.mp hin with hl | hr
    · obtain ⟨dst, hdst, heq⟩ := List.mem_map.mp hl
      obtain ⟨hadj, hpred⟩ := List.mem_filter.mp hdst
      subst heq
      exact ⟨⟨u, hmem.1, hmem.2⟩, Or.inr ⟨hadj, hpred⟩⟩
    · have heq : m = ⟨c, c⟩ := by simpa using hr
      subst heq
      exact ⟨⟨u, hmem.1, hmem.2⟩, Or.inl rfl⟩
  · rintro ⟨⟨u, hget, hp⟩, hdst⟩
    refine ⟨(m.src, u), (mem_player_units g _ m.src u).mpr ⟨hget, hp⟩, ?_⟩
    rw [List.mem_append]
    rcases hdst with heq | ⟨hadj, hpred⟩
    · right
      have : m = ⟨m.src, m.src⟩ := by
        cases m with
        | mk s d => simp only at heq ⊢; rw [heq]
      rw [this]
      exact List.mem_singleton.mpr rfl
    · left
      rw [List.mem_map]
      refine ⟨m.dst, List.mem_filter.mpr ⟨hadj, ?_⟩, rfl⟩
      exact hpred

/-! ### Claim C7: state invariant machinery -/

theorem get_next_turn (g : Game) (x : Coord) : g.next_turn.get x = g.get x := rfl

theorem mod_health_flag_a (g : Game) (c : Coord) (d : Int) (hwf : WF g) :
    (g.mod_health c d)._attacker_has_ai =
      (match g.get c with
       | some t =>
         if (t.mod_health d).is_alive = false ∧ t.type = .AI ∧ t.player = .Attacker
         then false else g._attacker_has_ai
       | none => g._attacker_has_ai) := by
  unfold Game.mod_health
  cases hget : g.get c with
  | none => rfl
  | some t =>
    have hv : g.is_valid_coord c = true := get_some_valid hget
    dsimp only
    unfold Game.remove_dead
    rw [get_set g c _ hwf hv c, if_pos rfl]
    dsimp only
    by_cases halive : (t.mod_health d).is_alive
    · rw [if_neg (by simpa using halive)]
      simp [halive]
    · rw [if_pos (by simpa using halive)]
      by_cases hAI : t.type = .AI
      · have hAI' : (t.mod_health d).type = .AI := by rw [mod_health_type]; exact hAI
        rw [if_pos hAI']
        by_cases hP : t.player = .Attacker
        · have hP' : (t.mod_health d).player = .Attacker := by rw [mod_health_player]; exact hP
          rw [if_pos hP']
          rw [if_pos ⟨by simpa using halive, hAI, hP⟩]
        · have hP' : ¬(t.mod_health d).player = .Attacker := by rw [mod_health_player]; exact hP
          rw [if_neg hP']
          rw [if_neg (fun h => hP h.2.2)]
          simp
      · have hAI' : ¬(t.mod_health d).type = .AI := by rw [mod_health_type]; exact hAI
        rw [if_neg hAI']
        rw [if_neg (fun h => hAI h.2.1)]
        simp

theorem mod_health_flag_d (g : Game) (c : Coord) (d : Int) (hwf : WF g) :
    (g.mod_health c d)._defender_has_ai =
      (match g.get c with
       | some t =>
         if (t.mod_health d).is_alive = false ∧ t.type = .AI ∧ t.player = .Defender
         then false else g._defender_has_ai
       | none => g._defender_has_ai) := by
  unfold Game.mod_health
  cases hget : g.get c with
  | none => rfl
  | some t =>
    have hv : g.is_valid_coord c = true := get_some_valid hget
    dsimp only
    unfold Game.remove_dead
    rw [get_set g c _ hwf hv c, if_pos rfl]
    dsimp only
    by_cases halive : (t.mod_health d).is_alive
    · rw [if_neg (by simpa using halive)]
      simp [halive]
    · rw [if_pos (by simpa using halive)]
      by_cases hAI : t.type = .AI
      · have hAI' : (t.mod_health d).type = .AI := by rw [mod_health_type]; exact hAI
        rw [if_pos hAI']
        by_cases hP : (t.mod_health d).player = .Attacker
        · rw [if_pos hP]
          rw [if_neg (fun h => by
            rw [mod_health_player] at hP
            rw [h.2.2] at hP
            exact Player.noConfusion hP)]
          simp
        · rw [if_neg hP]
          have hPd : t.player = .Defender := by
            rw [mod_health_player] at hP
            cases htp : t.player
            · exact absurd htp hP
            · rfl
          rw [if_pos ⟨by simpa using halive, hAI, hPd⟩]
      · have hAI' : ¬(t.mod_health d).type = .AI := by rw [mod_health_type]; exact hAI
        rw [if_neg hAI']
        rw [if_neg (fun h => hAI h.2.1)]
        simp

theorem GoodState.mod_health {g : Game} (hg : GoodState g) (c : Coord) (d : Int) :
    GoodState (g.mod_health c d) := by
  have hwf := hg.wf
  have hupd := get_mod_health g c d hwf
  have hfa := mod_health_flag_a g c d hwf
  have hfd := mod_health_flag_d g c d hwf
  cases hget : g.get c with
  | none =>
    have hid : g.mod_health c d = g := by
      unfold Game.mod_health
      rw [hget]
    rw [hid]
    exact hg
  | some t =>
    rw [hget] at hupd hfa hfd
    dsimp only at hfa hfd
    simp only [modCellVal] at hupd
    by_cases halive : (t.mod_health d).is_alive
    · -- the unit survives with clamped health; type and player unchanged
      rw [if_pos halive] at hupd
      rw [if_neg (fun h => by rw [h.1] at halive; exact Bool.noConfusion halive)] at hfa
      rw [if_neg (fun h => by rw [h.1] at halive; exact Bool.noConfusion halive)] at hfd
      have hAIiff : ∀ p, HasAI (g.mod_health c d) p ↔ HasAI g p := by
        intro p
        constructor
        · rintro ⟨x, w, hx, hAI, hP⟩
          rw [hupd x] at hx
          by_cases hxc : x = c
          · rw [if_pos hxc] at hx
            injection hx with hx
            refine ⟨c, t, hget, ?_, ?_⟩
            · rw [← mod_health_type t d, hx]; exact hAI
            · rw [← mod_health_player t d, hx]; exact hP
          · rw [if_neg hxc] at hx
            exact ⟨x, w, hx, hAI, hP⟩
        · rintro ⟨x, w, hx, hAI, hP⟩
          by_cases hxc : x = c
          · subst hxc
            rw [hget] at hx
            injection hx with hx
            subst hx
            refine ⟨x, t.mod_health d, ?_, ?_, ?_⟩
            · rw [hupd x, if_pos rfl]
            · rw [mod_health_type]; exact hAI
            · rw [mod_health_player]; exact hP
          · exact ⟨x, w, by rw [hupd x, if_neg hxc]; exact hx, hAI, hP⟩
      have huniq : ∀ p, AtMostOneAI g p → AtMostOneAI (g.mod_health c d) p := by
        intro p hu c₁ c₂ u₁ u₂ h1 h2 ht1 hp1 ht2 hp2
        rw [hupd c₁] at h1
        rw [hupd c₂] at h2
        by_cases hx1 : c₁ = c <;> by_cases hx2 : c₂ = c
        · rw [hx1, hx2]
        · rw [if_pos hx1] at h1
          rw [if_neg hx2] at h2
          injection h1 with h1
          refine absurd (hu c₁ c₂ t u₂ (hx1 ▸ hget) h2 ?_ ?_ ht2 hp2) (fun h => hx2 (h ▸ hx1))
          · rw [← mod_health_type t d, h1]; exact ht1
          · rw [← mod_health_player t d, h1]; exact hp1
        · rw [if_neg hx1] at h1
          rw [if_pos hx2] at h2
          injection h2 with h2
          refine absurd (hu c₁ c₂ u₁ t h1 (hx2 ▸ hget) ht1 hp1 ?_ ?_) (fun h => hx1 (h ▸ hx2))
          · rw [← mod_health_type t d, h2]; exact ht2
          · rw [← mod_health_player t d, h2]; exact hp2
        · rw [if_neg hx1] at h1
          rw [if_neg hx2] at h2
          exact hu c₁ c₂ u₁ u₂ h1 h2 ht1 hp1 ht2 hp2
      refine ⟨WF_mod_health g c d hwf, ?_, ?_, ?_, ?_, ?_⟩
      · intro x u hx
        rw [hupd x] at hx
        by_cases hxc : x = c
        · rw [if_pos hxc] at hx
          injection hx with hx
          subst hx
          have hb := mod_health_health_bounds t d
          have ha : 0 < (t.mod_health d).health := by
            simpa [Unit.is_alive] using halive
          omega
        · rw [if_neg hxc] at hx
          exact hg.health x u hx
      · rw [hfa, hAIiff .Attacker]; exact hg.flagA
      · rw [hfd, hAIiff .Defender]; exact hg.flagD
      · exact huniq .Attacker hg.uniqA
      · exact huniq .Defender hg.uniqD
    · -- the unit dies and is removed
      rw [if_neg halive] at hupd
      have halive' : (t.mod_health d).is_alive = false := by
        cases h : (t.mod_health d).is_alive
        · rfl
        · exact absurd h halive
      have hAIkill : ∀ p, (t.type = .AI ∧ t.player = p) →
          AtMostOneAI g p → ¬ HasAI (g.mod_health c d) p := by
        rintro p ⟨hAI, hP⟩ hu ⟨x, w, hx, hwAI, hwP⟩
        rw [hupd x] at hx
        by_cases hxc : x = c
        · rw [if_pos hxc] at hx; exact Option.noConfusion hx
        · rw [if_neg hxc] at hx
          exact hxc (hu x c w t hx hget hwAI hwP hAI hP)
      have hAIkeep : ∀ p, ¬(t.type = .AI ∧ t.player = p) →
          (HasAI (g.mod_health c d) p ↔ HasAI g p) := by
        intro p hnp
        constructor
        · rintro ⟨x, w, hx, hAI, hP⟩
          rw [hupd x] at hx
          by_cases hxc : x = c
          · rw [if_pos hxc] at hx; exact Option.noConfusion hx
          · rw [if_neg hxc] at hx; exact ⟨x, w, hx, hAI, hP⟩
        · rintro ⟨x, w, hx, hAI, hP⟩
          by_cases hxc : x = c
          · subst hxc
            rw [hget] at hx
            injection hx with hx
            subst hx
            exact absurd ⟨hAI, hP⟩ hnp
          · exact ⟨x, w, by rw [hupd x, if_neg hxc]; exact hx, hAI, hP⟩
      have huniq : ∀ p, AtMostOneAI g p → AtMostOneAI (g.mod_health c d) p := by
        intro p hu c₁ c₂ u₁ u₂ h1 h2 ht1 hp1 ht2 hp2
        rw [hupd c₁] at h1
        rw [hupd c₂] at h2
        by_cases hx1 : c₁ = c
        · rw [if_pos hx1] at h1; exact Option.noConfusion h1
        · by_cases hx2 : c₂ = c
          · rw [if_pos hx2] at h2; exact Option.noConfusion h2
          · rw [if_neg hx1] at h1
            rw [if_neg hx2] at h2
            exact hu c₁ c₂ u₁ u₂ h1 h2 ht1 hp1 ht2 hp2
      refine ⟨WF_mod_health g c d hwf, ?_, ?_, ?_, ?_, ?_⟩
      · intro x u hx
        rw [hupd x] at hx
        by_cases hxc : x = c
        · rw [if_pos hxc] at hx; exact Option.noConfusion hx
        · rw [if_neg hxc] at hx; exact hg.health x u hx
      · rw [hfa]
        by_cases hk : t.type = .AI ∧ t.player = .Attacker
        · rw [if_pos ⟨halive', hk.1, hk.2⟩]
          simp only [Bool.false_eq_true, false_iff]
          exact hAIkill .Attacker hk hg.uniqA
        · rw [if_neg (fun h => hk ⟨h.2.1, h.2.2⟩)]
          rw [hAIkeep .Attacker hk]
          exact hg.flagA
      · rw [hfd]
        by_cases hk : t.type = .AI ∧ t.player = .Defender
        · rw [if_pos ⟨halive', hk.1, hk.2⟩]
          simp only [Bool.false_eq_true, false_iff]
          exact hAIkill .Defender hk hg.uniqD
        · rw [if_neg (fun h => hk ⟨h.2.1, h.2.2⟩)]
          rw [hAIkeep .Defender hk]
          exact hg.flagD
      · exact huniq .Attacker hg.uniqA
      · exact huniq .Defender hg.uniqD

theorem GoodState.attack_preserved {g : Game} (hg : GoodState g) (m : CoordPair) :
    GoodState (g.attack m) := by
  unfold Game.attack
  split
  · exact (hg.mod_health _ _).mod_health _ _
  · exact hg

theorem GoodState.repair_preserved {g : Game} (hg : GoodState g) (m : CoordPair) :
    GoodState (g.repair m) := by
  unfold Game.repair
  split
  · exact hg.mod_health _ _
  · exact hg

theorem GoodState.mod_health_foldl {g : Game} (hg : GoodState g) (l : List Coord) (d : Int) :
    GoodState (l.foldl (fun acc c => acc.mod_health c d) g) := by
  induction l generalizing g with
  | nil => exact hg
  | cons c l ih => exact ih (hg.mod_health c d)

theorem GoodState.self_destruct_preserved {g : Game} (hg : GoodState g) (m : CoordPair) :
    GoodState (g.self_destruct m) := by
  unfold Game.self_destruct
  dsimp only
  split
  · exact (hg.mod_health _ _).mod_health_foldl _ _
  · exact hg.mod_health_foldl _ _

theorem GoodState.plain_move {g : Game} (hg : GoodState g) {m : CoordPair}
    (h : g.is_valid_move m = true) :
    GoodState ((g.set m.dst (g.get m.src)).set m.src none) := by
  obtain ⟨hvs, hvd, ⟨u, hs, hp⟩, hdn, hne⟩ := valid_move_extract h
  have hwf := hg.wf
  have hwf1 : WF (g.set m.dst (g.get m.src)) := WF_set _ _ _ hwf
  have hvs1 : (g.set m.dst (g.get m.src)).is_valid_coord m.src = true := by
    unfold Game.is_valid_coord
    rw [set_options]
    exact hvs
  have h1 := get_set g m.dst (g.get m.src) hwf hvd
  have h2 := get_set (g.set m.dst (g.get m.src)) m.src none hwf1 hvs1
  have hchar : ∀ x, ((g.set m.dst (g.get m.src)).set m.src none).get x =
      if x = m.src then none else if x = m.dst then some u else g.get x := by
    intro x
    rw [h2 x]
    split
    · rfl
    · rw [h1 x, hs]
  have hiff : ∀ p, HasAI ((g.set m.dst (g.get m.src)).set m.src none) p ↔ HasAI g p := by
    intro p
    constructor
    · rintro ⟨x, w, hx, hAI, hP⟩
      rw [hchar x] at hx
      split at hx
      · exact Option.noConfusion hx
      · split at hx
        · injection hx with hx
          subst hx
          exact ⟨m.src, u, hs, hAI, hP⟩
        · exact ⟨x, w, hx, hAI, hP⟩
    · rintro ⟨x, w, hx, hAI, hP⟩
      by_cases hxs : x = m.src
      · subst hxs
        rw [hs] at hx
        injection hx with hx
        refine ⟨m.dst, u, ?_, by rw [hx]; exact hAI, by rw [hx]; exact hP⟩
        rw [hchar m.dst, if_neg (fun hh => hne hh.symm), if_pos rfl]
      · by_cases hxd : x = m.dst
        · subst hxd
          rw [hdn] at hx
          exact Option.noConfusion hx
        · exact ⟨x, w, by rw [hchar x, if_neg hxs, if_neg hxd]; exact hx, hAI, hP⟩
  have huniq : ∀ p, AtMostOneAI g p →
      AtMostOneAI ((g.set m.dst (g.get m.src)).set m.src none) p := by
    intro p hu c₁ c₂ u₁ u₂ hc1 hc2 ht1 hp1 ht2 hp2
    rw [hchar c₁] at hc1
    rw [hchar c₂] at hc2
    split at hc1
    · exact Option.noConfusion hc1
    · split at hc2
      · exact Option.noConfusion hc2
      · rename_i hs1 hs2
        by_cases hd1 : c₁ = m.dst <;> by_cases hd2 : c₂ = m.dst
        · rw [hd1, hd2]
        · rw [if_pos hd1] at hc1
          rw [if_neg hd2] at hc2
          injection hc1 with hc1
          rw [← hc1] at ht1 hp1
          exact absurd (hu m.src c₂ u u₂ hs hc2 ht1 hp1 ht2 hp2).symm hs2
        · rw [if_neg hd1] at hc1
          rw [if_pos hd2] at hc2
          injection hc2 with hc2
          rw [← hc2] at ht2 hp2
          exact absurd (hu m.src c₁ u u₁ hs hc1 ht2 hp2 ht1 hp1).symm hs1
        · rw [if_neg hd1] at hc1
          rw [if_neg hd2] at hc2
          exact hu c₁ c₂ u₁ u₂ hc1 hc2 ht1 hp1 ht2 hp2
  refine ⟨WF_set _ _ _ hwf1, ?_, ?_, ?_, ?_, ?_⟩
  · intro x w hx
    rw [hchar x] at hx
    split at hx
    · exact Option.noConfusion hx
    · split at hx
      · injection hx with hx
        subst hx
        exact hg.health m.src u hs
      · exact hg.health x w hx
  · rw [show ((g.set m.dst (g.get m.src)).set m.src none)._attacker_has_ai
        = g._attacker_has_ai from by rw [set_attacker_flag, set_attacker_flag]]
    rw [hiff .Attacker]
    exact hg.flagA
  · rw [show ((g.set m.dst (g.get m.src)).set m.src none)._defender_has_ai
        = g._defender_has_ai from by rw [set_defender_flag, set_defender_flag]]
    rw [hiff .Defender]
    exact hg.flagD
  · exact huniq .Attacker hg.uniqA
  · exact huniq .Defender hg.uniqD

theorem GoodState.perform_move {g : Game} (hg : GoodState g) (m : CoordPair) :
    GoodState (g.perform_move m).1 := by
  unfold Game.perform_move
  split
  · exact hg.plain_move (by assumption)
  · split
    · exact hg.attack_preserved m
    · split
      · exact hg.repair_preserved m
      · split
        · exact hg.self_destruct_preserved m
        · exact hg

theorem GoodState.next_turn_preserved {g : Game} (hg : GoodState g) :
    GoodState g.next_turn := by
  refine ⟨⟨hg.wf.1, hg.wf.2⟩, ?_, ?_, ?_, ?_, ?_⟩
  · intro c u hc
    rw [get_next_turn] at hc
    exact hg.health c u hc
  · rw [show g.next_turn._attacker_has_ai = g._attacker_has_ai from rfl]
    rw [show HasAI g.next_turn .Attacker ↔ HasAI g .Attacker from by
      unfold HasAI; simp only [get_next_turn]]
    exact hg.flagA
  · rw [show g.next_turn._defender_has_ai = g._defender_has_ai from rfl]
    rw [show HasAI g.next_turn .Defender ↔ HasAI g .Defender from by
      unfold HasAI; simp only [get_next_turn]]
    exact hg.flagD
  · intro c₁ c₂ u₁ u₂ h1 h2
    exact hg.uniqA c₁ c₂ u₁ u₂ (by rw [← get_next_turn g c₁]; exact h1)
      (by rw [← get_next_turn g c₂]; exact h2)
  · intro c₁ c₂ u₁ u₂ h1 h2
    exact hg.uniqD c₁ c₂ u₁ u₂ (by rw [← get_next_turn g c₁]; exact h1)
      (by rw [← get_next_turn g c₂]; exact h2)

theorem reOpt_set (g : Game) (o : Options) (c : Coord) (u : Option Unit)
    (hdim : o.dim = g.options.dim) :
    reOpt (g.set c u) o = (reOpt g o).set c u := by
  have hvc : (reOpt g o).is_valid_coord c = g.is_valid_coord c := by
    unfold Game.is_valid_coord reOpt
    dsimp only
    rw [hdim]
  show reOpt (g.set c u) o = Game.set (reOpt g o) c u
  unfold Game.set
  rw [hvc]
  rw [show (reOpt g o).board = g.board from rfl]
  by_cases hb : g.is_valid_coord c
  · rw [if_pos hb, if_pos hb]
    cases hrow : g.board[c.row.toNat]? with
    | none => rfl
    | some row => rfl
  · rw [if_neg hb, if_neg hb]

set_option maxHeartbeats 2000000 in
theorem initial_game_closed_eq :
    initial_game ⟨5, 4, 2, 5, .AttackerVsDefender, true, some 100, true, "e0"⟩ = initialGame5 ⟨5, 4, 2, 5, .AttackerVsDefender, true, some 100, true, "e0"⟩ := by
  have e1 : (⟨List.replicate 5 (List.replicate 5 (none : Option Unit)),
      .Attacker, 0, ⟨5, 4, 2, 5, .AttackerVsDefender, true, some 100, true, "e0"⟩, true, true⟩ : Game).set ⟨0, 0⟩ (some { player := .Defender, type := .AI }) =
      (⟨[[some { player := .Defender, type := .AI }, none, none, none, none],
      [none, none, none, none, none],
      [none, none, none, none, none],
      [none, none, none, none, none],
      [none, none, none, none, none]],
      .Attacker, 0, ⟨5, 4, 2, 5, .AttackerVsDefender, true, some 100, true, "e0"⟩, true, true⟩ : Game) := by decide
  have e2 : (⟨[[some { player := .Defender, type := .AI }, none, none, none, none],
      [none, none, none, none, none],
      [none, none, none, none, none],
      [none, none, none, none, none],
      [none, none, none, none, none]],
      .Attacker, 0, ⟨5, 4, 2, 5, .AttackerVsDefender, true, some 100, true, "e0"⟩, true, true⟩ : Game).set ⟨1, 0⟩ (some { player := .Defender, type := .Tech }) =
      (⟨[[some { player := .Defender, type := .AI }, none, none, none, none],
      [some { player := .Defender, type := .Tech }, none, none, none, none],
      [none, none, none, none, none],
      [none, none, none, none, none],
      [none, none, none, none, none]],
      .Attacker, 0, ⟨5, 4, 2, 5, .AttackerVsDefender, true, some 100, true, "e0"⟩, true, true⟩ : Game) := by decide
  have e3 : (⟨[[some { player := .Defender, type := .AI }, none, none, none, none],
      [some { player := .Defender, type := .Tech }, none, none, none, none],
      [none, none, none, none, none],
      [none, none, none, none, none],
      [none, none, none, none, none]],
      .Attacker, 0, ⟨5, 4, 2, 5, .AttackerVsDefender, true, some 100, true, "e0"⟩, true, true⟩ : Game).set ⟨0, 1⟩ (some { player := .Defender, type := .Tech }) =
      (⟨[[some { player := .Defender, type := .AI }, some { player := .Defender, type := .Tech }, none, none, none],
      [some { player := .Defender, type := .Tech }, none, none, none, none],
      [none, none, none, none, none],
      [none, none, none, none, none],
      [none, none, none, none, none]],
      .Attacker, 0, ⟨5, 4, 2, 5, .AttackerVsDefender, true, some 100, true, "e0"⟩, true, true⟩ : Game) := by decide
  have e4 : (⟨[[some { player := .Defender, type := .AI }, some { player := .Defender, type := .Tech }, none, none, none],
      [some { player := .Defender, type := .Tech }, none, none, none, none],
      [none, none, none, none, none],
      [none, none, none, none, none],
      [none, none, none, none, none]],
      .Attacker, 0, ⟨5, 4, 2, 5, .AttackerVsDefender, true, some 100, true, "e0"⟩, true, true⟩ : Game).set ⟨2, 0⟩ (some { player := .Defender, type := .Firewall }) =
      (⟨[[some { player := .Defender, type := .AI }, some { player := .Defender, type := .Tech }, none, none, none],
      [some { player := .Defender, type := .Tech }, none, none, none, none],
      [some { player := .Defender, type := .Firewall }, none, none, none, none],
      [none, none, none, none, none],
      [none, none, none, none, none]],
      .Attacker, 0, ⟨5, 4, 2, 5, .AttackerVsDefender, true, some 100, true, "e0"⟩, true, true⟩ : Game) := by decide
  have e5 : (⟨[[some { player := .Defender, type := .AI }, some { player := .Defender, type := .Tech }, none, none, none],
      [some { player := .Defender, type := .Tech }, none, none, none, none],
      [some { player := .Defender, type := .Firewall }, none, none, none, none],
      [none, none, none, none, none],
      [none, none, none, none, none]],
      .Attacker, 0, ⟨5, 4, 2, 5, .AttackerVsDefender, true, some 100, true, "e0"⟩, true, true⟩ : Game).set ⟨0, 2⟩ (some { player := .Defender, type := .Firewall }) =
      (⟨[[some { player := .Defender, type := .AI }, some { player := .Defender, type := .Tech }, some { player := .Defender, type := .Firewall }, none, none],
      [some { player := .Defender, type := .Tech }, none, none, none, none],
      [some { player := .Defender, type := .Firewall }, none, none, none, none],
      [none, none, none, none, none],
      [none, none, none, none, none]],
      .Attacker, 0, ⟨5, 4, 2, 5, .AttackerVsDefender, true, some 100, true, "e0"⟩, true, true⟩ : Game) := by decide
  have e6 : (⟨[[some { player := .Defender, type := .AI }, some { player := .Defender, type := .Tech }, some { player := .Defender, type := .Firewall }, none, none],
      [some { player := .Defender, type := .Tech }, none, none, none, none],
      [some { player := .Defender, type := .Firewall }, none, none, none, none],
      [none, none, none, none, none],
      [none, none, none, none, none]],
      .Attacker, 0, ⟨5, 4, 2, 5, .AttackerVsDefender, true, some 100, true, "e0"⟩, true, true⟩ : Game).set ⟨1, 1⟩ (some { player := .Defender, type := .Program }) =
      (⟨[[some { player := .Defender, type := .AI }, some { player := .Defender, type := .Tech }, some { player := .Defender, type := .Firewall }, none, none],
      [some { player := .Defender, type := .Tech }, some { player := .Defender, type := .Program }, none, none, none],
      [some { player := .Defender, type := .Firewall }, none, none, none, none],
      [none, none, none, none, none],
      [none, none, none, none, none]],
      .Attacker, 0, ⟨5, 4, 2, 5, .AttackerVsDefender, true, some 100, true, "e0"⟩, true, true⟩ : Game) := by decide
  have e7 : (⟨[[some { player := .Defender, type := .AI }, some { player := .Defender, type := .Tech }, some { player := .Defender, type := .Firewall }, none, none],
      [some { player := .Defender, type := .Tech }, some { player := .Defender, type := .Program }, none, none, none],
      [some { player := .Defender, type := .Firewall }, none, none, none, none],
      [none, none, none, none, none],
      [none, none, none, none, none]],
      .Attacker, 0, ⟨5, 4, 2, 5, .AttackerVsDefender, true, some 100, true, "e0"⟩, true, true⟩ : Game).set ⟨4, 4⟩ (some { player := .Attacker, type := .AI }) =
      (⟨[[some { player := .Defender, type := .AI }, some { player := .Defender, type := .Tech }, some { player := .Defender, type := .Firewall }, none, none],
      [some { player := .Defender, type := .Tech }, some { player := .Defender, type := .Program }, none, none, none],
      [some { player := .Defender, type := .Firewall }, none, none, none, none],
      [none, none, none, none, none],
      [none, none, none, none, some { player := .Attacker, type := .AI }]],
      .Attacker, 0, ⟨5, 4, 2, 5, .AttackerVsDefender, true, some 100, true, "e0"⟩, true, true⟩ : Game) := by decide
  have e8 : (⟨[[some { player := .Defender, type := .AI }, some { player := .Defender, type := .Tech }, some { player := .Defender, type := .Firewall }, none, none],
      [some { player := .Defender, type := .Tech }, some { player := .Defender, type := .Program }, none, none, none],
      [some { player := .Defender, type := .Firewall }, none, none, none, none],
      [none, none, none, none, none],
      [none, none, none, none, some { player := .Attacker, type := .AI }]],
      .Attacker, 0, ⟨5, 4, 2, 5, .AttackerVsDefender, true, some 100, true, "e0"⟩, true, true⟩ : Game).set ⟨3, 4⟩ (some { player := .Attacker, type := .Virus }) =
      (⟨[[some { player := .Defender, type := .AI }, some { player := .Defender, type := .Tech }, some { player := .Defender, type := .Firewall }, none, none],
      [some { player := .Defender, type := .Tech }, some { player := .Defender, type := .Program }, none, none, none],
      [some { player := .Defender, type := .Firewall }, none, none, none, none],
      [none, none, none, none, some { player := .Attacker, type := .Virus }],
      [none, none, none, none, some { player := .Attacker, type := .AI }]],
      .Attacker, 0, ⟨5, 4, 2, 5, .AttackerVsDefender, true, some 100, true, "e0"⟩, true, true⟩ : Game) := by decide
  have e9 : (⟨[[some { player := .Defender, type := .AI }, some { player := .Defender, type := .Tech }, some { player := .Defender, type := .Firewall }, none, none],
      [some { player := .Defender, type := .Tech }, some { player := .Defender, type := .Program }, none, none, none],
      [some { player := .Defender, type := .Firewall }, none, none, none, none],
      [none, none, none, none, some { player := .Attacker, type := .Virus }],
      [none, none, none, none, some { player := .Attacker, type := .AI }]],
      .Attacker, 0, ⟨5, 4, 2, 5, .AttackerVsDefender, true, some 100, true, "e0"⟩, true, true⟩ : Game).set ⟨4, 3⟩ (some { player := .Attacker, type := .Virus }) =
      (⟨[[some { player := .Defender, type := .AI }, some { player := .Defender, type := .Tech }, some { player := .Defender, type := .Firewall }, none, none],
      [some { player := .Defender, type := .Tech }, some { player := .Defender, type := .Program }, none, none, none],
      [some { player := .Defender, type := .Firewall }, none, none, none, none],
      [none, none, none, none, some { player := .Attacker, type := .Virus }],
      [none, none, none, some { player := .Attacker, type := .Virus }, some { player := .Attacker, type := .AI }]],
      .Attacker, 0, ⟨5, 4, 2, 5, .AttackerVsDefender, true, some 100, true, "e0"⟩, true, true⟩ : Game) := by decide
  have e10 : (⟨[[some { player := .Defender, type := .AI }, some { player := .Defender, type := .Tech }, some { player := .Defender, type := .Firewall }, none, none],
      [some { player := .Defender, type := .Tech }, some { player := .Defender, type := .Program }, none, none, none],
      [some { player := .Defender, type := .Firewall }, none, none, none, none],
      [none, none, none, none, some { player := .Attacker, type := .Virus }],
      [none, none, none, some { player := .Attacker, type := .Virus }, some { player := .Attacker, type := .AI }]],
      .Attacker, 0, ⟨5, 4, 2, 5, .AttackerVsDefender, true, some 100, true, "e0"⟩, true, true⟩ : Game).set ⟨2, 4⟩ (some { player := .Attacker, type := .Program }) =
      (⟨[[some { player := .Defender, type := .AI }, some { player := .Defender, type := .Tech }, some { player := .Defender, type := .Firewall }, none, none],
      [some { player := .Defender, type := .Tech }, some { player := .Defender, type := .Program }, none, none, none],
      [some { player := .Defender, type := .Firewall }, none, none, none, some { player := .Attacker, type := .Program }],
      [none, none, none, none, some { player := .Attacker, type := .Virus }],
      [none, none, none, some { player := .Attacker, type := .Virus }, some { player := .Attacker, type := .AI }]],
      .Attacker, 0, ⟨5, 4, 2, 5, .AttackerVsDefender, true, some 100, true, "e0"⟩, true, true⟩ : Game) := by decide
  have e11 : (⟨[[some { player := .Defender, type := .AI }, some { player := .Defender, type := .Tech }, some { player := .Defender, type := .Firewall }, none, none],
      [some { player := .Defender, type := .Tech }, some { player := .Defender, type := .Program }, none, none, none],
      [some { player := .Defender, type := .Firewall }, none, none, none, some { player := .Attacker, type := .Program }],
      [none, none, none, none, some { player := .Attacker, type := .Virus }],
      [none, none, none, some { player := .Attacker, type := .Virus }, some { player := .Attacker, type := .AI }]],
      .Attacker, 0, ⟨5, 4, 2, 5, .AttackerVsDefender, true, some 100, true, "e0"⟩, true, true⟩ : Game).set ⟨4, 2⟩ (some { player := .Attacker, type := .Program }) =
      (⟨[[some { player := .Defender, type := .AI }, some { player := .Defender, type := .Tech }, some { player := .Defender, type := .Firewall }, none, none],
      [some { player := .Defender, type := .Tech }, some { player := .Defender, type := .Program }, none, none, none],
      [some { player := .Defender, type := .Firewall }, none, none, none, some { player := .Attacker, type := .Program }],
      [none, none, none, none, some { player := .Attacker, type := .Virus }],
      [none, none, some { player := .Attacker, type := .Program }, some { player := .Attacker, type := .Virus }, some { player := .Attacker, type := .AI }]],
      .Attacker, 0, ⟨5, 4, 2, 5, .AttackerVsDefender, true, some 100, true, "e0"⟩, true, true⟩ : Game) := by decide
  have e12 : (⟨[[some { player := .Defender, type := .AI }, some { player := .Defender, type := .Tech }, some { player := .Defender, type := .Firewall }, none, none],
      [some { player := .Defender, type := .Tech }, some { player := .Defender, type := .Program }, none, none, none],
      [some { player := .Defender, type := .Firewall }, none, none, none, some { player := .Attacker, type := .Program }],
      [none, none, none, none, some { player := .Attacker, type := .Virus }],
      [none, none, some { player := .Attacker, type := .Program }, some { player := .Attacker, type := .Virus }, some { player := .Attacker, type := .AI }]],
      .Attacker, 0, ⟨5, 4, 2, 5, .AttackerVsDefender, true, some 100, true, "e0"⟩, true, true⟩ : Game).set ⟨3, 3⟩ (some { player := .Attacker, type := .Firewall }) =
      (⟨[[some { player := .Defender, type := .AI }, some { player := .Defender, type := .Tech }, some { player := .Defender, type := .Firewall }, none, none],
      [some { player := .Defender, type := .Tech }, some { player := .Defender, type := .Program }, none, none, none],
      [some { player := .Defender, type := .Firewall }, none, none, none, some { player := .Attacker, type := .Program }],
      [none, none, none, some { player := .Attacker, type := .Firewall }, some { player := .Attacker, type := .Virus }],
      [none, none, some { player := .Attacker, type := .Program }, some { player := .Attacker, type := .Virus }, some { player := .Attacker, type := .AI }]],
      .Attacker, 0, ⟨5, 4, 2, 5, .AttackerVsDefender, true, some 100, true, "e0"⟩, true, true⟩ : Game) := by decide
  have t1 : initial_game ⟨5, 4, 2, 5, .AttackerVsDefender, true, some 100, true, "e0"⟩ =
      ((((((((((((⟨List.replicate 5 (List.replicate 5 (none : Option Unit)),
      .Attacker, 0, ⟨5, 4, 2, 5, .AttackerVsDefender, true, some 100, true, "e0"⟩, true, true⟩ : Game).set ⟨0, 0⟩ (some { player := .Defender, type := .AI })).set ⟨1, 0⟩ (some { player := .Defender, type := .Tech })).set ⟨0, 1⟩ (some { player := .Defender, type := .Tech })).set ⟨2, 0⟩ (some { player := .Defender, type := .Firewall })).set ⟨0, 2⟩ (some { player := .Defender, type := .Firewall })).set ⟨1, 1⟩ (some { player := .Defender, type := .Program })).set ⟨4, 4⟩ (some { player := .Attacker, type := .AI })).set ⟨3, 4⟩ (some { player := .Attacker, type := .Virus })).set ⟨4, 3⟩ (some { player := .Attacker, type := .Virus })).set ⟨2, 4⟩ (some { player := .Attacker, type := .Program })).set ⟨4, 2⟩ (some { player := .Attacker, type := .Program })).set ⟨3, 3⟩ (some { player := .Attacker, type := .Firewall }) := rfl
  rw [t1, e1, e2, e3, e4, e5, e6, e7, e8, e9, e10, e11, e12]
  rfl

theorem initial_game_transport (o : Options) (ho : o.dim = 5) :
    initial_game o =
      reOpt (initial_game ⟨5, 4, 2, 5, .AttackerVsDefender, true, some 100, true, "e0"⟩) o := by
  unfold initial_game
  dsimp only
  rw [ho]
  simp only [reOpt_set, set_options, ho]
  rfl

theorem initial_game_eq (opts : Options) (h : opts.dim = 5) :
    initial_game opts = initialGame5 opts := by
  rw [initial_game_transport opts h, initial_game_closed_eq]
  rfl

theorem GoodState_initial (opts : Options) (h : opts.dim = 5) :
    GoodState (initial_game opts) := by
  rw [initial_game_eq opts h]
  have hdim : (initialGame5 opts).options.dim = 5 := h
  have hhealth : ∀ row ∈ initialBoard5, ∀ cell ∈ row, ∀ u : Unit, cell = some u →
      1 ≤ u.health ∧ u.health ≤ 9 := by decide
  have hvalid_bounds : ∀ c : Coord, (initialGame5 opts).is_valid_coord c = true →
      0 ≤ c.row ∧ c.row < 5 ∧ 0 ≤ c.col ∧ c.col < 5 := by
    intro c hc
    have hb := (is_valid_coord_iff _ c).mp hc
    rw [hdim] at hb
    exact_mod_cast hb
  have keyA : (List.range 5).all (fun r => (List.range 5).all fun cl =>
      match cellAt initialBoard5 r cl with
      | some u => !(u.type == UnitType.AI && u.player == Player.Attacker)
          || ((r == 4) && (cl == 4))
      | none => true) = true := by decide
  have keyD : (List.range 5).all (fun r => (List.range 5).all fun cl =>
      match cellAt initialBoard5 r cl with
      | some u => !(u.type == UnitType.AI && u.player == Player.Defender)
          || ((r == 0) && (cl == 0))
      | none => true) = true := by decide
  have locA : ∀ c u, (initialGame5 opts).get c = some u →
      u.type = .AI → u.player = .Attacker → c = ⟨4, 4⟩ := by
    intro c u hcu hAI hP
    have hv := get_some_valid hcu
    have hb := hvalid_bounds c hv
    have hcell : cellAt initialBoard5 c.row.toNat c.col.toNat = some u := by
      rw [get_eq_cellAt, if_pos hv] at hcu
      exact hcu
    have hkey := List.all_eq_true.mp
      (List.all_eq_true.mp keyA c.row.toNat (List.mem_range.mpr (by omega)))
      c.col.toNat (List.mem_range.mpr (by omega))
    simp only [hcell, hAI, hP] at hkey
    simp only [beq_self_eq_true, Bool.and_self, Bool.not_true, Bool.false_or,
      Bool.and_eq_true, beq_iff_eq] at hkey
    have hr : c.row = 4 := by omega
    have hcc : c.col = 4 := by omega
    cases c with
    | mk r cl =>
      dsimp only at hr hcc
      subst hr
      subst hcc
      rfl
  have locD : ∀ c u, (initialGame5 opts).get c = some u →
      u.type = .AI → u.player = .Defender → c = ⟨0, 0⟩ := by
    intro c u hcu hAI hP
    have hv := get_some_valid hcu
    have hb := hvalid_bounds c hv
    have hcell : cellAt initialBoard5 c.row.toNat c.col.toNat = some u := by
      rw [get_eq_cellAt, if_pos hv] at hcu
      exact hcu
    have hkey := List.all_eq_true.mp
      (List.all_eq_true.mp keyD c.row.toNat (List.mem_range.mpr (by omega)))
      c.col.toNat (List.mem_range.mpr (by omega))
    simp only [hcell, hAI, hP] at hkey
    simp only [beq_self_eq_true, Bool.and_self, Bool.not_true, Bool.false_or,
      Bool.and_eq_true, beq_iff_eq] at hkey
    have hr : c.row = 0 := by omega
    have hcc : c.col = 0 := by omega
    cases c with
    | mk r cl =>
      dsimp only at hr hcc
      subst hr
      subst hcc
      rfl
  have hgetA : (initialGame5 opts).get ⟨4, 4⟩
      = some { player := .Attacker, type := .AI } := by
    have hv : (initialGame5 opts).is_valid_coord ⟨4, 4⟩ = true := by
      rw [is_valid_coord_iff, hdim]
      norm_num
    rw [get_eq_cellAt, if_pos hv]
    rfl
  have hgetD : (initialGame5 opts).get ⟨0, 0⟩
      = some { player := .Defender, type := .AI } := by
    have hv : (initialGame5 opts).is_valid_coord ⟨0, 0⟩ = true := by
      rw [is_valid_coord_iff, hdim]
      norm_num
    rw [get_eq_cellAt, if_pos hv]
    rfl
  refine ⟨⟨?_, ?_⟩, ?_, ?_, ?_, ?_, ?_⟩
  · show initialBoard5.length = opts.dim
    rw [h]
    rfl
  · intro row hrow
    have hlen : ∀ r ∈ initialBoard5, r.length = 5 := by decide
    show row.length = opts.dim
    rw [h]
    exact hlen row hrow
  · intro c u hc
    obtain ⟨row, hrow, hcell⟩ := get_some_mem_flat hc
    exact hhealth row hrow (some u) hcell u rfl
  · exact ⟨fun _ => ⟨⟨4, 4⟩, _, hgetA, rfl, rfl⟩, fun _ => rfl⟩
  · exact ⟨fun _ => ⟨⟨0, 0⟩, _, hgetD, rfl, rfl⟩, fun _ => rfl⟩
  · intro c₁ c₂ u₁ u₂ h1 h2 ht1 hp1 ht2 hp2
    rw [locA c₁ u₁ h1 ht1 hp1, locA c₂ u₂ h2 ht2 hp2]
  · intro c₁ c₂ u₁ u₂ h1 h2 ht1 hp1 ht2 hp2
    rw [locD c₁ u₁ h1 ht1 hp1, locD c₂ u₂ h2 ht2 hp2]

/-- Claim C7: on every reachable game state (from the standard `dim = 5`
initial board, closed under `perform_move` and `next_turn`), every unit on
the grid has health in [1,9] -- dead units are removed, never stored -- and
each AI-alive flag is true exactly when that player's AI is on the grid.
Proved through the inductive invariant `GoodState`, which additionally
carries well-formedness and at-most-one-AI-per-player. -/
theorem claim_C7 (opts : Options) (h : opts.dim = 5) (g : Game)
    (hr : Reachable opts g) :
    (∀ c u, g.get c = some u → 1 ≤ u.health ∧ u.health ≤ 9)
    ∧ (g._attacker_has_ai = true ↔ HasAI g .Attacker)
    ∧ (g._defender_has_ai = true ↔ HasAI g .Defender) := by
  have hgs : GoodState g := by
    induction hr with
    | init => exact GoodState_initial opts h
    | step_move m _ ih => exact ih.perform_move m
    | step_turn _ ih => exact ih.next_turn_preserved
  exact ⟨hgs.health, hgs.flagA, hgs.flagD⟩

/-- Witness for C7 at the default options and the initial state itself. -/
theorem claim_C7_witness :
    (∀ c u, (initial_game {}).get c = some u → 1 ≤ u.health ∧ u.health ≤ 9)
    ∧ ((initial_game {})._attacker_has_ai = true ↔ HasAI (initial_game {}) .Attacker)
    ∧ ((initial_game {})._defender_has_ai = true ↔ HasAI (initial_game {}) .Defender) :=
  claim_C7 {} rfl (initial_game {}) Reachable.init

/-! ### Claim C8: alpha-beta pruning is value-preserving -/

theorem wab_read_only (g : Game) (b : Bool) (m : CoordPair) (x : Coord) (p : Player) :
    (withAlphaBeta g b).get x = g.get x
    ∧ (withAlphaBeta g b).is_valid_move m = g.is_valid_move m
    ∧ (withAlphaBeta g b).is_valid_to_attack m = g.is_valid_to_attack m
    ∧ (withAlphaBeta g b).is_valid_to_repair m = g.is_valid_to_repair m
    ∧ (withAlphaBeta g b).is_valid_to_self_destruct m = g.is_valid_to_self_destruct m
    ∧ (withAlphaBeta g b).has_winner = g.has_winner
    ∧ (withAlphaBeta g b).move_candidates = g.move_candidates
    ∧ (withAlphaBeta g b).player_units p = g.player_units p :=
  ⟨rfl, rfl, rfl, rfl, rfl, rfl, rfl, rfl⟩

theorem wab_eval (slf g : Game) (b : Bool) (mp : Player) :
    evalHeuristic (withAlphaBeta slf b) (withAlphaBeta g b) mp = evalHeuristic slf g mp := rfl

theorem wab_next_turn (g : Game) (b : Bool) :
    (withAlphaBeta g b).next_turn = withAlphaBeta g.next_turn b := rfl

theorem wab_set (g : Game) (b : Bool) (c : Coord) (u : Option Unit) :
    withAlphaBeta (g.set c u) b = (withAlphaBeta g b).set c u := by
  show _ = Game.set (withAlphaBeta g b) c u
  unfold Game.set
  rw [show (withAlphaBeta g b).is_valid_coord c = g.is_valid_coord c from rfl,
      show (withAlphaBeta g b).board = g.board from rfl]
  by_cases hv : g.is_valid_coord c
  · rw [if_pos hv, if_pos hv]
    cases hrow : g.board[c.row.toNat]? with
    | none => rfl
    | some row => rfl
  · rw [if_neg hv, if_neg hv]

theorem wab_remove_dead (g : Game) (b : Bool) (c : Coord) :
    withAlphaBeta (g.remove_dead c) b = (withAlphaBeta g b).remove_dead c := by
  show _ = Game.remove_dead (withAlphaBeta g b) c
  unfold Game.remove_dead
  rw [show (withAlphaBeta g b).get c = g.get c from rfl]
  cases hget : g.get c with
  | none => rfl
  | some u =>
    dsimp only
    by_cases halive : u.is_alive
    · simp only [halive, eq_self_iff_true, not_true, if_false]
    · have hf : u.is_alive = false := by
        cases h : u.is_alive
        · rfl
        · exact absurd h halive
      simp only [hf, Bool.false_eq_true, not_false_eq_true, if_true]
      by_cases hAI : u.type = .AI
      · simp only [hAI, eq_self_iff_true, if_true]
        by_cases hP : u.player = .Attacker
        · simp only [hP, eq_self_iff_true, if_true]
          rw [← wab_set]
          rfl
        · simp only [if_neg hP]
          rw [← wab_set]
          rfl
      · simp only [if_neg hAI]
        rw [← wab_set]

theorem wab_mod_health (g : Game) (b : Bool) (c : Coord) (d : Int) :
    withAlphaBeta (g.mod_health c d) b = (withAlphaBeta g b).mod_health c d := by
  show _ = Game.mod_health (withAlphaBeta g b) c d
  unfold Game.mod_health
  rw [show (withAlphaBeta g b).get c = g.get c from rfl]
  cases hget : g.get c with
  | none => rfl
  | some t =>
    dsimp only
    rw [← wab_set, ← wab_remove_dead]

theorem wab_attack (g : Game) (b : Bool) (m : CoordPair) :
    withAlphaBeta (g.attack m) b = (withAlphaBeta g b).attack m := by
  show _ = Game.attack (withAlphaBeta g b) m
  unfold Game.attack
  rw [show (withAlphaBeta g b).get m.src = g.get m.src from rfl,
      show (withAlphaBeta g b).get m.dst = g.get m.dst from rfl]
  cases hs : g.get m.src with
  | none => rfl
  | some su =>
    cases hd : g.get m.dst with
    | none => rfl
    | some du =>
      dsimp only
      rw [← wab_mod_health, ← wab_mod_health]

theorem wab_repair (g : Game) (b : Bool) (m : CoordPair) :
    withAlphaBeta (g.repair m) b = (withAlphaBeta g b).repair m := by
  show _ = Game.repair (withAlphaBeta g b) m
  unfold Game.repair
  rw [show (withAlphaBeta g b).get m.src = g.get m.src from rfl,
      show (withAlphaBeta g b).get m.dst = g.get m.dst from rfl]
  cases hs : g.get m.src with
  | none => rfl
  | some su =>
    cases hd : g.get m.dst with
    | none => rfl
    | some du =>
      dsimp only
      rw [← wab_mod_health]

theorem wab_mod_health_foldl (l : List Coord) (g : Game) (b : Bool) (d : Int) :
    withAlphaBeta (l.foldl (fun acc c => acc.mod_health c d) g) b
      = l.foldl (fun acc c => acc.mod_health c d) (withAlphaBeta g b) := by
  induction l generalizing g with
  | nil => rfl
  | cons c l ih =>
    simp only [List.foldl_cons]
    rw [ih, wab_mod_health]

theorem wab_self_destruct (g : Game) (b : Bool) (m : CoordPair) :
    withAlphaBeta (g.self_destruct m) b = (withAlphaBeta g b).self_destruct m := by
  show _ = Game.self_destruct (withAlphaBeta g b) m
  unfold Game.self_destruct
  dsimp only
  rw [show (withAlphaBeta g b).get m.src = g.get m.src from rfl]
  cases hs : g.get m.src with
  | none =>
    dsimp only
    rw [wab_mod_health_foldl]
  | some u =>
    dsimp only
    rw [wab_mod_health_foldl, wab_mod_health]

theorem wab_perform_move (g : Game) (b : Bool) (m : CoordPair) :
    (withAlphaBeta g b).perform_move m =
      (withAlphaBeta (g.perform_move m).1 b, (g.perform_move m).2) := by
  unfold Game.perform_move
  rw [show (withAlphaBeta g b).is_valid_move m = g.is_valid_move m from rfl,
      show (withAlphaBeta g b).is_valid_to_attack m = g.is_valid_to_attack m from rfl,
      show (withAlphaBeta g b).is_valid_to_repair m = g.is_valid_to_repair m from rfl,
      show (withAlphaBeta g b).is_valid_to_self_destruct m
        = g.is_valid_to_self_destruct m from rfl]
  by_cases h1 : g.is_valid_move m
  · rw [if_pos h1, if_pos h1]
    dsimp only
    rw [show (withAlphaBeta g b).get m.src = g.get m.src from rfl,
      ← wab_set g b m.dst (g.get m.src),
      ← wab_set (g.set m.dst (g.get m.src)) b m.src none]
  · rw [if_neg h1, if_neg h1]
    by_cases h2 : g.is_valid_to_attack m
    · rw [if_pos h2, if_pos h2]
      dsimp only
      rw [← wab_attack]
    · rw [if_neg h2, if_neg h2]
      by_cases h3 : g.is_valid_to_repair m
      · rw [if_pos h3, if_pos h3]
        dsimp only
        rw [← wab_repair]
      · rw [if_neg h3, if_neg h3]
        by_cases h4 : g.is_valid_to_self_destruct m
        · rw [if_pos h4, if_pos h4]
          dsimp only
          rw [← wab_self_destruct]
        · rw [if_neg h4, if_neg h4]

theorem pureFold_wab (g : Game) (b : Bool) (F F' : Game → Int)
    (hF : ∀ tg, F (withAlphaBeta tg b) = F' tg) (isMax : Bool) (l : List CoordPair) :
    ∀ acc, pureFold (withAlphaBeta g b) F isMax l acc = pureFold g F' isMax l acc := by
  induction l with
  | nil => intro acc; rfl
  | cons m ms ih =>
    intro acc
    simp only [pureFold]
    rw [wab_perform_move g b m]
    rcases hpm : g.perform_move m with ⟨tg, s, str⟩
    cases s
    · dsimp only
      exact ih acc
    · dsimp only
      rw [wab_next_turn, hF]
      exact ih _

theorem pureVal_wab (b : Bool) (d : Nat) : ∀ slf g isMax mp,
    pureVal (withAlphaBeta slf b) (withAlphaBeta g b) d isMax mp
      = pureVal slf g d isMax mp := by
  induction d with
  | zero => intro slf g isMax mp; rfl
  | succ d ih =>
    intro slf g isMax mp
    simp only [pureVal]
    rw [show (withAlphaBeta g b).has_winner = g.has_winner from rfl]
    by_cases hw : g.has_winner.isSome
    · rw [if_pos hw, if_pos hw]
      rfl
    · rw [if_neg hw, if_neg hw]
      rw [show (withAlphaBeta g b).move_candidates = g.move_candidates from rfl]
      exact pureFold_wab g b _ _ (fun tg => ih slf tg (!isMax) mp) isMax g.move_candidates _

theorem pureFold_ge (g : Game) (w : Game → Int) (l : List CoordPair) :
    ∀ acc, acc ≤ pureFold g w true l acc := by
  induction l with
  | nil => intro acc; exact le_refl acc
  | cons m ms ih =>
    intro acc
    simp only [pureFold]
    rcases hpm : g.perform_move m with ⟨tg, s, str⟩
    cases s
    · exact ih acc
    · exact le_trans (le_max_left _ _) (ih _)

theorem pureFold_le (g : Game) (w : Game → Int) (l : List CoordPair) :
    ∀ acc, pureFold g w false l acc ≤ acc := by
  induction l with
  | nil => intro acc; exact le_refl acc
  | cons m ms ih =>
    intro acc
    simp only [pureFold]
    rcases hpm : g.perform_move m with ⟨tg, s, str⟩
    cases s
    · exact ih acc
    · exact le_trans (ih _) (min_le_left _ _)

theorem abLoopMax_ge (g : Game) (child : Game → Int → Int → Int) (l : List CoordPair) :
    ∀ acc best α β, acc ≤ (abLoopMax g child l acc best α β).1 := by
  induction l with
  | nil => intro acc best α β; exact le_refl acc
  | cons m ms ih =>
    intro acc best α β
    simp only [abLoopMax]
    rcases hpm : g.perform_move m with ⟨tg, s, str⟩
    cases s
    · exact ih acc best α β
    · dsimp only
      by_cases hab : g.options.alpha_beta
      · rw [if_pos hab]
        by_cases hcut : β ≤ max α (child tg.next_turn α β)
        · rw [if_pos hcut]
          dsimp only
          split <;> omega
        · rw [if_neg hcut]
          refine le_trans ?_ (ih _ _ _ _)
          split <;> omega
      · rw [if_neg hab]
        refine le_trans ?_ (ih _ _ _ _)
        split <;> omega

theorem abLoopMin_le (g : Game) (child : Game → Int → Int → Int) (l : List CoordPair) :
    ∀ acc best α β, (abLoopMin g child l acc best α β).1 ≤ acc := by
  induction l with
  | nil => intro acc best α β; exact le_refl acc
  | cons m ms ih =>
    intro acc best α β
    simp only [abLoopMin]
    rcases hpm : g.perform_move m with ⟨tg, s, str⟩
    cases s
    · exact ih acc best α β
    · dsimp only
      by_cases hab : g.options.alpha_beta
      · rw [if_pos hab]
        by_cases hcut : min β (child tg.next_turn α β) ≤ α
        · rw [if_pos hcut]
          dsimp only
          split <;> omega
        · rw [if_neg hcut]
          refine le_trans (ih _ _ _ _) ?_
          split <;> omega
      · rw [if_neg hab]
        refine le_trans (ih _ _ _ _) ?_
        split <;> omega

theorem abLoopMax_no_ab (g : Game) (hab : g.options.alpha_beta = false)
    (child : Game → Int → Int → Int) (w : Game → Int)
    (hchild : ∀ tg a bb, tg.options.alpha_beta = false → child tg a bb = w tg)
    (l : List CoordPair) :
    ∀ acc best α β, (abLoopMax g child l acc best α β).1 = pureFold g w true l acc := by
  induction l with
  | nil => intro acc best α β; rfl
  | cons m ms ih =>
    intro acc best α β
    simp only [abLoopMax, pureFold]
    rcases hpm : g.perform_move m with ⟨tg, s, str⟩
    cases s
    · dsimp only
      exact ih acc best α β
    · dsimp only
      have hflag : tg.next_turn.options.alpha_beta = false := by
        rw [next_turn_options,
          show tg.options = (g.perform_move m).1.options from by rw [hpm],
          perform_move_options]
        exact hab
      rw [hchild tg.next_turn α β hflag]
      rw [if_neg (by simp [hab])]
      rw [show (if w tg.next_turn > acc then w tg.next_turn else acc)
          = max acc (w tg.next_turn) from by split <;> omega]
      exact ih _ _ α β

theorem abLoopMin_no_ab (g : Game) (hab : g.options.alpha_beta = false)
    (child : Game → Int → Int → Int) (w : Game → Int)
    (hchild : ∀ tg a bb, tg.options.alpha_beta = false → child tg a bb = w tg)
    (l : List CoordPair) :
    ∀ acc best α β, (abLoopMin g child l acc best α β).1 = pureFold g w false l acc := by
  induction l with
  | nil => intro acc best α β; rfl
  | cons m ms ih =>
    intro acc best α β
    simp only [abLoopMin, pureFold]
    rcases hpm : g.perform_move m with ⟨tg, s, str⟩
    cases s
    · dsimp only
      exact ih acc best α β
    · dsimp only
      have hflag : tg.next_turn.options.alpha_beta = false := by
        rw [next_turn_options,
          show tg.options = (g.perform_move m).1.options from by rw [hpm],
          perform_move_options]
        exact hab
      rw [hchild tg.next_turn α β hflag]
      rw [if_neg (by simp [hab])]
      rw [show (if w tg.next_turn < acc then w tg.next_turn else acc)
          = min acc (w tg.next_turn) from by split <;> omega]
      exact ih _ _ α β

theorem minimax_no_ab (d : Nat) : ∀ (slf g : Game) (isMax : Bool) (mp : Player) (α β : Int),
    g.options.alpha_beta = false →
    (minimax slf g d isMax mp α β).1 = pureVal slf g d isMax mp := by
  induction d with
  | zero => intro slf g isMax mp α β hab; rfl
  | succ d ih =>
    intro slf g isMax mp α β hab
    simp only [minimax, pureVal]
    by_cases hw : g.has_winner.isSome
    · rw [if_pos hw, if_pos hw]
    · rw [if_neg hw, if_neg hw]
      cases isMax
      · exact abLoopMin_no_ab g hab _ _
          (fun tg a bb hflag => ih slf tg true mp a bb hflag) g.move_candidates _ _ α β
      · exact abLoopMax_no_ab g hab _ _
          (fun tg a bb hflag => ih slf tg false mp a bb hflag) g.move_candidates _ _ α β

theorem abLoopMax_fs (g : Game) (hab : g.options.alpha_beta = true)
    (child : Game → Int → Int → Int) (w : Game → Int)
    (hchild : ∀ (m : CoordPair) (a bb : Int),
      MIN_HEURISTIC_SCORE ≤ a → a < bb → bb ≤ MAX_HEURISTIC_SCORE →
      FailSoft (child ((g.perform_move m).1.next_turn) a bb)
        (w ((g.perform_move m).1.next_turn)) a bb)
    (l : List CoordPair) :
    ∀ (accA accP α β : Int) (best : Option CoordPair),
      MIN_HEURISTIC_SCORE ≤ α → α < β → β ≤ MAX_HEURISTIC_SCORE →
      accA ≤ α → accP ≤ accA →
      FailSoft (abLoopMax g child l accA best α β).1 (pureFold g w true l accP) α β := by
  induction l with
  | nil =>
    intro accA accP α β best h1 h2 h3 h4 h5
    exact ⟨fun _ => h5, fun hβ => absurd (le_trans hβ h4) (not_le.mpr h2),
      fun hα _ => absurd h4 (not_le.mpr hα)⟩
  | cons m ms ih =>
    intro accA accP α β best h1 h2 h3 h4 h5
    simp only [abLoopMax, pureFold]
    have hc := hchild m α β h1 h2 h3
    rcases hpm : g.perform_move m with ⟨tg, s, str⟩
    rw [hpm] at hc
    dsimp only at hc
    cases s
    · dsimp only
      exact ih accA accP α β best h1 h2 h3 h4 h5
    · dsimp only
      rw [if_pos hab]
      simp only [eq_self_iff_true, if_true]
      set ce := child tg.next_turn α β with hcedef
      set wv := w tg.next_turn with hwvdef
      rw [show (if ce > accA then ce else accA) = max accA ce from by split <;> omega]
      by_cases hcut : β ≤ max α ce
      · rw [if_pos hcut]
        dsimp only
        have hceβ : β ≤ ce := by omega
        have hwvce : ce ≤ wv := hc.2.1 hceβ
        have hT := pureFold_ge g w ms (max accP wv)
        exact ⟨fun hle => by omega, fun _ => by omega, fun hα hβ' => by omega⟩
      · rw [if_neg hcut]
        have hceβ' : ce < β := by omega
        have hwvce : wv ≤ ce := by
          by_cases hcea : ce ≤ α
          · exact hc.1 hcea
          · exact le_of_eq (hc.2.2 (by omega) hceβ').symm
        obtain ⟨f1, f2, f3⟩ := ih (max accA ce) (max accP wv) (max α ce) β
          (if ce > accA then some m else best) (by omega) (by omega) h3 (by omega) (by omega)
        have hge := abLoopMax_ge g child ms (max accA ce)
          (if ce > accA then some m else best) (max α ce) β
        refine ⟨fun hle => f1 (by omega), f2, fun hα hβ' => ?_⟩
        by_cases hcase : (abLoopMax g child ms (max accA ce)
            (if ce > accA then some m else best) (max α ce) β).1 ≤ max α ce
        · have hTle := f1 hcase
          have heq := hc.2.2 (by omega) (by omega)
          have hT := pureFold_ge g w ms (max accP wv)
          omega
        · exact f3 (by omega) hβ'

theorem abLoopMin_fs (g : Game) (hab : g.options.alpha_beta = true)
    (child : Game → Int → Int → Int) (w : Game → Int)
    (hchild : ∀ (m : CoordPair) (a bb : Int),
      MIN_HEURISTIC_SCORE ≤ a → a < bb → bb ≤ MAX_HEURISTIC_SCORE →
      FailSoft (child ((g.perform_move m).1.next_turn) a bb)
        (w ((g.perform_move m).1.next_turn)) a bb)
    (l : List CoordPair) :
    ∀ (accM accP α β : Int) (best : Option CoordPair),
      MIN_HEURISTIC_SCORE ≤ α → α < β → β ≤ MAX_HEURISTIC_SCORE →
      β ≤ accM → accM ≤ accP →
      FailSoft (abLoopMin g child l accM best α β).1 (pureFold g w false l accP) α β := by
  induction l with
  | nil =>
    intro accM accP α β best h1 h2 h3 h4 h5
    exact ⟨fun hle => absurd (le_trans h4 hle) (not_le.mpr h2), fun _ => h5,
      fun _ hβ' => absurd (lt_of_le_of_lt h4 hβ') (lt_irrefl β)⟩
  | cons m ms ih =>
    intro accM accP α β best h1 h2 h3 h4 h5
    simp only [abLoopMin, pureFold]
    have hc := hchild m α β h1 h2 h3
    rcases hpm : g.perform_move m with ⟨tg, s, str⟩
    rw [hpm] at hc
    dsimp only at hc
    cases s
    · dsimp only
      exact ih accM accP α β best h1 h2 h3 h4 h5
    · dsimp only
      rw [if_pos hab]
      simp only [Bool.false_eq_true, if_false]
      set ce := child tg.next_turn α β with hcedef
      set wv := w tg.next_turn with hwvdef
      rw [show (if ce < accM then ce else accM) = min accM ce from by split <;> omega]
      by_cases hcut : min β ce ≤ α
      · rw [if_pos hcut]
        dsimp only
        have hceα : ce ≤ α := by omega
        have hwvce : wv ≤ ce := hc.1 hceα
        have hT := pureFold_le g w ms (min accP wv)
        exact ⟨fun _ => by omega, fun hβ => by omega, fun hα _ => by omega⟩
      · rw [if_neg hcut]
        have hceα' : α < ce := by omega
        have hwvce : ce ≤ wv := by
          by_cases hceb : β ≤ ce
          · exact hc.2.1 hceb
          · exact le_of_eq (hc.2.2 hceα' (by omega))
        obtain ⟨f1, f2, f3⟩ := ih (min accM ce) (min accP wv) α (min β ce)
          (if ce < accM then some m else best) h1 (by omega) (by omega) (by omega) (by omega)
        have hle := abLoopMin_le g child ms (min accM ce)
          (if ce < accM then some m else best) α (min β ce)
        refine ⟨f1, fun hβ => f2 (by omega), fun hα hβ' => ?_⟩
        by_cases hcase : min β ce ≤ (abLoopMin g child ms (min accM ce)
            (if ce < accM then some m else best) α (min β ce)).1
        · have hTge := f2 hcase
          have heq := hc.2.2 (by omega) (by omega)
          have hT := pureFold_le g w ms (min accP wv)
          omega
        · exact f3 hα (by omega)

theorem minimax_fs (d : Nat) : ∀ (slf g : Game) (isMax : Bool) (mp : Player) (α β : Int),
    g.options.alpha_beta = true →
    MIN_HEURISTIC_SCORE ≤ α → α < β → β ≤ MAX_HEURISTIC_SCORE →
    FailSoft (minimax slf g d isMax mp α β).1 (pureVal slf g d isMax mp) α β := by
  induction d with
  | zero =>
    intro slf g isMax mp α β hab h1 h2 h3
    exact ⟨fun _ => le_refl _, fun _ => le_refl _, fun _ _ => rfl⟩
  | succ d ih =>
    intro slf g isMax mp α β hab h1 h2 h3
    simp only [minimax, pureVal]
    by_cases hw : g.has_winner.isSome
    · rw [if_pos hw, if_pos hw]
      exact ⟨fun _ => le_refl _, fun _ => le_refl _, fun _ _ => rfl⟩
    · rw [if_neg hw, if_neg hw]
      cases isMax
      · exact abLoopMin_fs g hab _ _
          (fun m a bb ha hab2 hb => ih slf ((g.perform_move m).1.next_turn) true mp a bb
            (by rw [next_turn_options, perform_move_options]; exact hab) ha hab2 hb)
          g.move_candidates MAX_HEURISTIC_SCORE MAX_HEURISTIC_SCORE α β none h1 h2 h3 h3
          (le_refl _)
      · exact abLoopMax_fs g hab _ _
          (fun m a bb ha hab2 hb => ih slf ((g.perform_move m).1.next_turn) false mp a bb
            (by rw [next_turn_options, perform_move_options]; exact hab) ha hab2 hb)
          g.move_candidates MIN_HEURISTIC_SCORE MIN_HEURISTIC_SCORE α β none h1 h2 h3 h1
          (le_refl _)

theorem length_intRange (a b : Int) : (intRange a b).length = (b - a).toNat := by
  unfold intRange
  rw [List.length_map, List.length_range]

theorem length_iter_rectangle_from_dim (d : Nat) :
    (CoordPair.from_dim d).iter_rectangle.length = d * d := by
  unfold CoordPair.iter_rectangle CoordPair.from_dim
  dsimp only
  rw [List.length_flatMap]
  simp only [Function.comp_def]
  have h2 : ((intRange 0 ((d : Int) - 1 + 1)).map
      (fun r => ((intRange 0 ((d : Int) - 1 + 1)).map (fun cl => (⟨r, cl⟩ : Coord))).length)).sum
      = ((intRange 0 ((d : Int) - 1 + 1)).map (fun _ => d)).sum := by
    congr 1
    refine List.map_congr_left (fun r _ => ?_)
    rw [List.length_map, length_intRange]
    omega
  rw [h2, List.map_const', List.sum_replicate, smul_eq_mul, length_intRange,
    show ((d : Int) - 1 + 1 - 0).toNat = d from by omega]

theorem player_units_length_le (g : Game) (p : Player) :
    (g.player_units p).length ≤ g.options.dim * g.options.dim := by
  unfold Game.player_units
  refine le_trans (List.length_filterMap_le _ _) ?_
  rw [length_iter_rectangle_from_dim]

theorem get_moves_length_le (g : Game) (p : Player) :
    (g.get_moves_for_player p).length ≤ 5 * (g.options.dim * g.options.dim) := by
  unfold Game.get_moves_for_player
  rw [List.length_flatMap]
  simp only [Function.comp_def]
  refine le_trans (List.sum_le_card_nsmul _ 5 ?_) ?_
  · intro x hx
    simp only [List.mem_map] at hx
    obtain ⟨su, hsu, rfl⟩ := hx
    simp only [List.length_append, List.length_map, List.length_cons, List.length_nil]
    have hf : ((su.1.iter_adjacent.filter fun dst =>
        g.is_valid_move ⟨su.1, dst⟩ || g.is_valid_to_attack ⟨su.1, dst⟩
          || g.is_valid_to_repair ⟨su.1, dst⟩).length) ≤ su.1.iter_adjacent.length :=
      List.length_filter_le _ _
    have hadj : su.1.iter_adjacent.length = 4 := rfl
    omega
  · rw [List.length_map, smul_eq_mul]
    have := player_units_length_le g p
    omega

theorem heuristic_e0_abs (g : Game) (mp : Player) :
    -(20000 * ((g.options.dim : Int) * g.options.dim)) ≤ g.heuristic_e0 mp ∧
      g.heuristic_e0 mp ≤ 20000 * ((g.options.dim : Int) * g.options.dim) := by
  unfold Game.heuristic_e0
  dsimp only
  have hN1 := player_units_length_le g mp
  have hN2 := player_units_length_le g
    (if mp = .Defender then Player.Attacker else Player.Defender)
  have hv1 := List.length_filter_le (fun x => decide (x.2.type = .Virus)) (g.player_units mp)
  have ht1 := List.length_filter_le (fun x => decide (x.2.type = .Tech)) (g.player_units mp)
  have hf1 := List.length_filter_le (fun x => decide (x.2.type = .Firewall)) (g.player_units mp)
  have hp1 := List.length_filter_le (fun x => decide (x.2.type = .Program)) (g.player_units mp)
  have ha1 := List.length_filter_le (fun x => decide (x.2.type = .AI)) (g.player_units mp)
  have hv2 := List.length_filter_le (fun x => decide (x.2.type = .Virus))
    (g.player_units (if mp = .Defender then Player.Attacker else Player.Defender))
  have ht2 := List.length_filter_le (fun x => decide (x.2.type = .Tech))
    (g.player_units (if mp = .Defender then Player.Attacker else Player.Defender))
  have hf2 := List.length_filter_le (fun x => decide (x.2.type = .Firewall))
    (g.player_units (if mp = .Defender then Player.Attacker else Player.Defender))
  have hp2 := List.length_filter_le (fun x => decide (x.2.type = .Program))
    (g.player_units (if mp = .Defender then Player.Attacker else Player.Defender))
  have ha2 := List.length_filter_le (fun x => decide (x.2.type = .AI))
    (g.player_units (if mp = .Defender then Player.Attacker else Player.Defender))
  omega

theorem heuristic_e1_abs (g : Game) (mp : Player) :
    -(20000 * ((g.options.dim : Int) * g.options.dim)) ≤ g.heuristic_e1 mp ∧
      g.heuristic_e1 mp ≤ 20000 * ((g.options.dim : Int) * g.options.dim) := by
  unfold Game.heuristic_e1
  dsimp only
  have hN1 := player_units_length_le g mp
  have hN2 := player_units_length_le g
    (if mp = .Defender then Player.Attacker else Player.Defender)
  have ha1 := List.length_filter_le (fun x => decide (x.2.type = .AI)) (g.player_units mp)
  have ha2 := List.length_filter_le (fun x => decide (x.2.type = .AI))
    (g.player_units (if mp = .Defender then Player.Attacker else Player.Defender))
  have he1 := List.length_filter_le
    (fun x : Coord × Unit => x.2.type = .AI && g.is_engaged_in_combat x.1) (g.player_units mp)
  have he2 := List.length_filter_le
    (fun x : Coord × Unit => x.2.type = .AI && g.is_engaged_in_combat x.1)
    (g.player_units (if mp = .Defender then Player.Attacker else Player.Defender))
  omega

theorem heuristic_e2_abs (g : Game) (mp : Player) :
    -(20000 * ((g.options.dim : Int) * g.options.dim)) ≤ g.heuristic_e2 mp ∧
      g.heuristic_e2 mp ≤ 20000 * ((g.options.dim : Int) * g.options.dim) := by
  unfold Game.heuristic_e2
  dsimp only
  have hN1 := player_units_length_le g mp
  have hN2 := player_units_length_le g
    (if mp = .Defender then Player.Attacker else Player.Defender)
  have ha1 := List.length_filter_le (fun x => decide (x.2.type = .AI)) (g.player_units mp)
  have ha2 := List.length_filter_le (fun x => decide (x.2.type = .AI))
    (g.player_units (if mp = .Defender then Player.Attacker else Player.Defender))
  have hv1 := List.length_filter_le (fun x => decide (x.2.type = .Virus)) (g.player_units mp)
  have hv2 := List.length_filter_le (fun x => decide (x.2.type = .Virus))
    (g.player_units (if mp = .Defender then Player.Attacker else Player.Defender))
  have ht1 := List.length_filter_le (fun x => decide (x.2.type = .Tech)) (g.player_units mp)
  have ht2 := List.length_filter_le (fun x => decide (x.2.type = .Tech))
    (g.player_units (if mp = .Defender then Player.Attacker else Player.Defender))
  have hn1 := get_moves_length_le g mp
  have hn2 := get_moves_length_le g
    (if mp = .Defender then Player.Attacker else Player.Defender)
  omega

theorem evalHeuristic_bounds (slf g : Game) (mp : Player) (hdim : g.options.dim ≤ 300) :
    MIN_HEURISTIC_SCORE ≤ evalHeuristic slf g mp ∧
      evalHeuristic slf g mp ≤ MAX_HEURISTIC_SCORE := by
  have hsq : ((g.options.dim : Int) * g.options.dim) ≤ 90000 := by
    have := Nat.mul_le_mul hdim hdim
    omega
  unfold evalHeuristic MIN_HEURISTIC_SCORE MAX_HEURISTIC_SCORE
  have hsqnn : (0 : Int) ≤ ((g.options.dim : Int) * g.options.dim) := by positivity
  split
  · have := heuristic_e1_abs g mp
    omega
  · split
    · have := heuristic_e2_abs g mp
      omega
    · have := heuristic_e0_abs g mp
      omega

theorem pureFold_bounds (g : Game) (w : Game → Int) (lo hi : Int)
    (hw : ∀ m : CoordPair, (g.perform_move m).2.1 = true →
      lo ≤ w ((g.perform_move m).1.next_turn) ∧ w ((g.perform_move m).1.next_turn) ≤ hi)
    (isMax : Bool) (l : List CoordPair) :
    ∀ acc, lo ≤ acc → acc ≤ hi →
      lo ≤ pureFold g w isMax l acc ∧ pureFold g w isMax l acc ≤ hi := by
  induction l with
  | nil => intro acc hlo hhi; exact ⟨hlo, hhi⟩
  | cons m ms ih =>
    intro acc hlo hhi
    simp only [pureFold]
    have hwm := hw m
    rcases hpm : g.perform_move m with ⟨tg, s, str⟩
    rw [hpm] at hwm
    dsimp only at hwm
    cases s
    · dsimp only
      exact ih acc hlo hhi
    · dsimp only
      have hb := hwm rfl
      cases isMax
      · exact ih _ (by omega) (by omega)
      · exact ih _ (by omega) (by omega)

theorem pureVal_bounds (d : Nat) : ∀ (slf g : Game) (isMax : Bool) (mp : Player),
    g.options.dim ≤ 300 →
    MIN_HEURISTIC_SCORE ≤ pureVal slf g d isMax mp ∧
      pureVal slf g d isMax mp ≤ MAX_HEURISTIC_SCORE := by
  induction d with
  | zero => intro slf g isMax mp hdim; exact evalHeuristic_bounds slf g mp hdim
  | succ d ih =>
    intro slf g isMax mp hdim
    simp only [pureVal]
    by_cases hwin : g.has_winner.isSome
    · rw [if_pos hwin]
      exact evalHeuristic_bounds slf g mp hdim
    · rw [if_neg hwin]
      have hMM : MIN_HEURISTIC_SCORE ≤ MAX_HEURISTIC_SCORE := by decide
      refine pureFold_bounds g _ _ _ (fun m _ => ?_) isMax g.move_candidates _ ?_ ?_
      · refine ih slf ((g.perform_move m).1.next_turn) (!isMax) mp ?_
        rw [next_turn_options, perform_move_options]
        exact hdim
      · cases isMax <;> [exact hMM; exact le_refl _]
      · cases isMax <;> [exact le_refl _; exact hMM]

theorem minimax_ab_eq_pure (slf g : Game) (d : Nat) (isMax : Bool) (mp : Player)
    (hab : g.options.alpha_beta = true) (hdim : g.options.dim ≤ 300) :
    (minimax slf g d isMax mp MIN_HEURISTIC_SCORE MAX_HEURISTIC_SCORE).1
      = pureVal slf g d isMax mp := by
  have hfs := minimax_fs d slf g isMax mp MIN_HEURISTIC_SCORE MAX_HEURISTIC_SCORE hab
    (le_refl _) (by decide) (le_refl _)
  have hTb := pureVal_bounds d slf g isMax mp hdim
  obtain ⟨f1, f2, f3⟩ := hfs
  by_cases hlow : (minimax slf g d isMax mp MIN_HEURISTIC_SCORE MAX_HEURISTIC_SCORE).1
      ≤ MIN_HEURISTIC_SCORE
  · have := f1 hlow
    omega
  · by_cases hhigh : MAX_HEURISTIC_SCORE
        ≤ (minimax slf g d isMax mp MIN_HEURISTIC_SCORE MAX_HEURISTIC_SCORE).1
    · have := f2 hhigh
      omega
    · exact f3 (by omega) (by omega)

/-- Claim C8: for every board state (of any dimension the program can
actually play, `dim ≤ 300`, which keeps every heuristic value strictly
inside the initial window), every search depth and every perspective
player, minimax run with alpha-beta pruning enabled over the initial
window `[MIN_HEURISTIC_SCORE, MAX_HEURISTIC_SCORE]` returns the same root
score as the identical search with pruning disabled. -/
theorem claim_C8 (g : Game) (d : Nat) (isMax : Bool) (mp : Player)
    (hdim : g.options.dim ≤ 300) :
    (minimax (withAlphaBeta g true) (withAlphaBeta g true) d isMax mp
        MIN_HEURISTIC_SCORE MAX_HEURISTIC_SCORE).1
      = (minimax (withAlphaBeta g false) (withAlphaBeta g false) d isMax mp
        MIN_HEURISTIC_SCORE MAX_HEURISTIC_SCORE).1 := by
  rw [minimax_ab_eq_pure (withAlphaBeta g true) (withAlphaBeta g true) d isMax mp rfl hdim]
  rw [minimax_no_ab d (withAlphaBeta g false) (withAlphaBeta g false) isMax mp
    MIN_HEURISTIC_SCORE MAX_HEURISTIC_SCORE rfl]
  rw [pureVal_wab true d g g isMax mp, pureVal_wab false d g g isMax mp]

theorem claim_C8_witness :
    ({} : Game).options.dim ≤ 300 ∧
      (minimax (withAlphaBeta ({} : Game) true) (withAlphaBeta ({} : Game) true) 2 true
          .Attacker MIN_HEURISTIC_SCORE MAX_HEURISTIC_SCORE).1
        = (minimax (withAlphaBeta ({} : Game) false) (withAlphaBeta ({} : Game) false) 2 true
          .Attacker MIN_HEURISTIC_SCORE MAX_HEURISTIC_SCORE).1 :=
  ⟨by decide, claim_C8 ({} : Game) 2 true .Attacker (by decide)⟩

/-- Claim C10: `suggest_move` always runs the depth-limited search to
completion (the elapsed wall-clock time of the whole completed search,
modelled as an oracle input, is only compared to the budget afterwards);
the result is `none` when the elapsed time exceeds `max_time` (the
computed move is discarded), otherwise it is exactly the move produced by
the minimax search at the configured maximum depth; when the search did
produce a move, the answer is `none` precisely on overrun. -/
theorem claim_C10 (g : Game) (elapsed_seconds : Rat) :
    (elapsed_seconds > g.options.max_time → suggest_move g elapsed_seconds = none) ∧
    (¬ elapsed_seconds > g.options.max_time →
      suggest_move g elapsed_seconds
        = (minimax g g g.options.max_depth true g.next_player
            MIN_HEURISTIC_SCORE MAX_HEURISTIC_SCORE).2) ∧
    ((minimax g g g.options.max_depth true g.next_player
        MIN_HEURISTIC_SCORE MAX_HEURISTIC_SCORE).2.isSome →
      (suggest_move g elapsed_seconds = none ↔ elapsed_seconds > g.options.max_time)) := by
  refine ⟨fun h => ?_, fun h => ?_, fun hs => ?_⟩
  · unfold suggest_move
    rw [if_pos h]
  · unfold suggest_move
    rw [if_neg h]
  · unfold suggest_move
    by_cases h : elapsed_seconds > g.options.max_time
    · rw [if_pos h]
      exact ⟨fun _ => h, fun _ => rfl⟩
    · rw [if_neg h]
      refine ⟨fun hnone => absurd ?_ (Option.not_isSome_iff_eq_none.mpr hnone), fun hgt => absurd hgt h⟩
      exact hs

theorem claim_C10_witness :
    ((10 : Rat) > ({} : Game).options.max_time ∧ suggest_move ({} : Game) 10 = none) ∧
      (¬ (1 : Rat) > ({} : Game).options.max_time ∧
        suggest_move ({} : Game) 1
          = (minimax ({} : Game) ({} : Game) ({} : Game).options.max_depth true
              ({} : Game).next_player MIN_HEURISTIC_SCORE MAX_HEURISTIC_SCORE).2) :=
  ⟨⟨by decide, (claim_C10 ({} : Game) 10).1 (by decide)⟩,
    ⟨by decide, (claim_C10 ({} : Game) 1).2.1 (by decide)⟩⟩

end AIWargame
